import Mathlib

/-!
Command connection protocol (`al_CommandConnection.cpp`)

A shallow embedding of the command/control protocol of
`src/src/protocol/al_CommandConnection.cpp`: the byte codec, the server
(`CommandServer`), the client (`CommandClient`) and the shared
`CommandConnection::stop`.

Conventions of the embedding

* A byte is a `Nat`; a C pointer / array is a `Buffer`, a function from the
  index to the byte stored there.
* Everything the operating system decides (whether `open`, `bind`, `connect`
  succeed, how many bytes a `send` reports, what a `recv` delivers) is an
  explicit argument of the operation.
* Every operation returns the new state together with the calls it made on
  sockets (`SendCall`) and on the `processIncomingMessage` hook (`Dispatch`).
* Threads are run one step at a time: an iteration of the accept loop or of a
  read loop is a function on the state.
* A `memcpy` on regions that overlap is undefined in C; the bytes it leaves in
  its destination are an explicit argument as well (`Recv.overlapped`), and
  nothing is assumed about them.
-/

namespace al

/-! ## Data model -/

/-- Modelled from the spec: the header declaring the message tags is not part of
the sources; every message begins with one tag byte and the five control tags
are implementation-defined constants, so they are parameters here. -/
structure Tags where
  HANDSHAKE : Nat
  HANDSHAKE_ACK : Nat
  PING : Nat
  PONG : Nat
  GOODBYE : Nat
deriving DecidableEq, Repr

/-- Modelled from the spec: the tag values of the wire-format table of the spec
(§6), used where a concrete assignment is needed. -/
def specTags : Tags :=
  { HANDSHAKE := 0, HANDSHAKE_ACK := 1, PING := 2, PONG := 3, GOODBYE := 4 }

/-- A byte that is none of the five control tags (an application-defined tag). -/
def Tags.isApplication (t : Tags) (b : Nat) : Prop :=
  b ≠ t.HANDSHAKE ∧ b ≠ t.HANDSHAKE_ACK ∧ b ≠ t.PING ∧ b ≠ t.PONG ∧ b ≠ t.GOODBYE

instance (t : Tags) (b : Nat) : Decidable (t.isApplication b) := by
  unfold Tags.isApplication; infer_instance

/-- The value `SIZE_MAX` of a 64-bit `size_t`, the error result of `recv`. -/
def SIZE_MAX : Nat := 2 ^ 64 - 1

/-- A C byte array or pointer: the byte stored at each index. -/
abbrev Buffer := Nat → Nat

/-- The buffer whose first bytes are those of `l` (zero elsewhere). -/
def Buffer.ofList (l : List Nat) : Buffer := fun i => l.getD i 0

/-- The first `n` bytes of a buffer. -/
def Buffer.view (buf : Buffer) : Nat → List Nat
  | 0 => []
  | n + 1 => Buffer.view buf n ++ [buf n]

/-- The buffer after `recv(buf + off, ...)` stored the bytes `data`. -/
def Buffer.recvInto (buf : Buffer) (off : Nat) (data : List Nat) : Buffer :=
  fun i => if off ≤ i ∧ i < off + data.length then data.getD (i - off) 0 else buf i

/-- The buffer after `memcpy(buf, buf + src, n)`, a copy of `n` bytes from the
source `[src, src + n)` to the destination `[0, n)`. When the two regions do
not overlap (`n ≤ src`) the destination receives the source bytes. When they
overlap (`src < n`, the case `src = 0` of a copy onto itself included) the C
standard leaves the call undefined: the destination then holds the bytes of
`overlapped`, about which nothing is assumed. -/
def Buffer.memcpy (buf : Buffer) (src n : Nat) (overlapped : Buffer) : Buffer :=
  fun i => if i < n then (if n ≤ src then buf (src + i) else overlapped i) else buf i

/-- The buffer after `buf[i] = b`. -/
def Buffer.set (buf : Buffer) (i b : Nat) : Buffer :=
  fun j => if j = i then b else buf j

/-- One way in which a C library may carry out `memcpy(buf, buf + src, n)`: byte
by byte from the last byte down, each byte read when its turn comes. On regions
that overlap, bytes of the source are overwritten before they are read. -/
def Buffer.copyDown (src : Nat) : Nat → Buffer → Buffer
  | 0, buf => buf
  | n + 1, buf => Buffer.copyDown src n (buf.set n (buf (src + n)))

/-- Modelled from the spec: `al::Socket` is declared outside the sources; a
socket is identified by its descriptor and has an address, a port and an
opened flag. -/
structure Socket where
  fd : Nat
  address : String
  port : Nat
  opened : Bool
deriving DecidableEq, Repr

/-- The socket after `close()`. -/
def Socket.close (s : Socket) : Socket := { s with opened := false }

/-- Modelled from the spec: `al::ValueSource` is declared outside the sources;
it names the origin `{ipAddr, port}` of a message. -/
structure ValueSource where
  ipAddr : String
  port : Nat
deriving DecidableEq, Repr

/-- One call `socket.send(message, length)`: the destination, the `length`
bytes handed to the socket, the length argument and the byte count the call
reported. -/
structure SendCall where
  dst : Socket
  bytes : List Nat
  length : Nat
  result : Nat
deriving DecidableEq, Repr

/-- What the network answers to a `send`: the byte count reported for a send
of `length` bytes on a socket. -/
abbrev SendOracle := Socket → Nat → Nat

/-- Perform `dst.send(message, length)` and record it. -/
def doSend (net : SendOracle) (dst : Socket) (message : Buffer) (length : Nat) : SendCall :=
  { dst := dst, bytes := message.view length, length := length, result := net dst length }

/-- The role of a connection, `CommandConnection::BarrierState`. -/
inductive BarrierState where
  | SERVER
  | CLIENT
  | NONE
deriving DecidableEq, Repr

/-- A `std::thread` handle: joinable until it has been joined. -/
structure Thread where
  joinable : Bool
deriving DecidableEq, Repr

/-- Errors raised by the standard library. -/
inductive Error where
  /-- The `std::system_error` (`invalid_argument`) of `join()` on a thread that is
  not joinable. -/
  | joinNotJoinable
deriving DecidableEq, Repr

/-- The call `thread.join()`: raises when the thread is not joinable, otherwise
waits for the thread and leaves the handle not joinable. -/
def Thread.join (th : Thread) : Except Error Thread :=
  if th.joinable then .ok { joinable := false } else .error .joinNotJoinable

/-- The loop `for (auto &connection : threads) connection->join();`. -/
def joinAll : List Thread → Except Error (List Thread)
  | [] => .ok []
  | th :: rest => do
    let th1 ← th.join
    let rest1 ← joinAll rest
    pure (th1 :: rest1)

/-- The state shared by both roles, the members of `CommandConnection` used by
the source file. -/
structure CommandConnection where
  mRunning : Bool
  mState : BarrierState
  mSocket : Socket
  mVersion : Nat
  mRevision : Nat
  mConnectionThreads : List Thread
deriving DecidableEq, Repr

/-- The state of a `CommandServer`: the shared members, the accept-loop thread
and the connection registry with the versions recorded for each entry. -/
structure CommandServer extends CommandConnection where
  mBootstrapServerThread : Option Thread
  mServerConnections : List Socket
  mConnectionVersions : List (Nat × Nat)
deriving DecidableEq, Repr

/-- The state of a `CommandClient`: the shared members only. -/
abbrev CommandClient := CommandConnection

/-- Modelled from the spec: the constructors are declared outside the sources;
a connection starts not running, in role `NONE`, with a closed socket and no
thread. -/
def CommandConnection.fresh (sock : Socket) (version revision : Nat) : CommandConnection :=
  { mRunning := false, mState := .NONE, mSocket := sock.close, mVersion := version,
    mRevision := revision, mConnectionThreads := [] }

/-- Modelled from the spec: a server before `start()`, with an empty registry
and no accept-loop thread. -/
def CommandServer.fresh (sock : Socket) (version revision : Nat) : CommandServer :=
  { toCommandConnection := CommandConnection.fresh sock version revision,
    mBootstrapServerThread := none, mServerConnections := [], mConnectionVersions := [] }

/-! ## Sending -/

/-- The test `!src || connection->address() != src->ipAddr ||
connection->port() != src->port` of both `sendMessage` functions. -/
def notExcluded (connection : Socket) (src : Option ValueSource) : Bool :=
  match src with
  | none => true
  | some v => connection.address != v.ipAddr || connection.port != v.port

/-- The broadcast loop of `CommandServer::sendMessage`: starting from `ret`,
one send per registered connection that is not excluded, with
`ret &= (sent == length)`. -/
def broadcast (net : SendOracle) (message : Buffer) (length : Nat)
    (src : Option ValueSource) : List Socket → Bool → Bool × List SendCall
  | [], ret => (ret, [])
  | connection :: rest, ret =>
    if notExcluded connection src then
      let call := doSend net connection message length
      let r := broadcast net message length src rest (ret && (call.result == length))
      (r.1, call :: r.2)
    else
      broadcast net message length src rest ret

/-- The function `CommandServer::sendMessage(message, length, dst, src)`: the
returned flag and the sends performed, in order. -/
def CommandServer.sendMessage (net : SendOracle) (s : CommandServer) (message : Buffer)
    (length : Nat) (dst : Option Socket) (src : Option ValueSource) : Bool × List SendCall :=
  if length = 0 then (false, [])
  else
    match dst with
    | none => broadcast net message length src s.mServerConnections true
    | some d =>
      let call := doSend net d message length
      (call.result == length, [call])

/-- The function `CommandClient::sendMessage(message, length, dst, src)`. -/
def CommandClient.sendMessage (net : SendOracle) (c : CommandClient) (message : Buffer)
    (length : Nat) (dst : Option Socket) (src : Option ValueSource) : Bool × List SendCall :=
  if length = 0 then (false, [])
  else
    match dst with
    | none =>
      if notExcluded c.mSocket src then
        let call := doSend net c.mSocket message length
        (call.result == length, [call])
      else (true, [])
    | some d =>
      if c.mSocket.address != d.address || c.mSocket.port != d.port then
        let call := doSend net d message length
        (call.result == length, [call])
      else (true, [])

/-- The function `CommandServer::connectionCount()`. -/
def CommandServer.connectionCount (s : CommandServer) : Nat :=
  s.mServerConnections.length

/-! ## Byte codec (`namespace Convert`) -/

/-- The function `Convert::to_bytes(std::uint16_t x)`: `b[i] = x >> 8 * i`, each
stored in a `uint8_t`. -/
def Convert.to_bytes16 (x : Nat) : List Nat :=
  let x := x % 2 ^ 16
  [(x >>> (8 * 0)) % 2 ^ 8, (x >>> (8 * 1)) % 2 ^ 8]

/-- The function `Convert::from_bytes(const uint8_t *bytes, uint16_t &dest)`:
`(uint16_t(bytes[1]) << 8 * 1) | (uint16_t(bytes[0]) << 8 * 0)`, stored in a
`uint16_t`. -/
def Convert.from_bytes16 (bytes : Buffer) : Nat :=
  (((bytes 1 % 2 ^ 8) <<< (8 * 1)) ||| ((bytes 0 % 2 ^ 8) <<< (8 * 0))) % 2 ^ 16

/-- The function `Convert::to_bytes(std::uint32_t x)`: `b[i] = x >> 8 * i` for
`i = 0..3`, each stored in a `uint8_t`. -/
def Convert.to_bytes32 (x : Nat) : List Nat :=
  let x := x % 2 ^ 32
  [(x >>> (8 * 0)) % 2 ^ 8, (x >>> (8 * 1)) % 2 ^ 8, (x >>> (8 * 2)) % 2 ^ 8,
   (x >>> (8 * 3)) % 2 ^ 8]

/-- The function `Convert::from_bytes(const uint8_t *bytes, uint32_t &dest)`:
`(uint16_t(bytes[3]) << 8 * 3) | (uint16_t(bytes[4]) << 8 * 2) |
(uint16_t(bytes[1]) << 8 * 1) | (uint16_t(bytes[0]) << 8 * 0)`, as written in the
source (it reads index 4 and never index 2), stored in a `uint32_t`; the shifts
are made in `int` and the result is their bit pattern modulo `2 ^ 32`. -/
def Convert.from_bytes32 (bytes : Buffer) : Nat :=
  ((((bytes 3 % 2 ^ 8 % 2 ^ 16) <<< (8 * 3)) ||| ((bytes 4 % 2 ^ 8 % 2 ^ 16) <<< (8 * 2))) |||
    ((bytes 1 % 2 ^ 8 % 2 ^ 16) <<< (8 * 1)) ||| ((bytes 0 % 2 ^ 8 % 2 ^ 16) <<< (8 * 0)))
    % 2 ^ 32

/-- The pointer `&message[k]`: the buffer seen from index `k` on. -/
def Buffer.offset (buf : Buffer) (k : Nat) : Buffer := fun i => buf (k + i)

/-! ## Server: start, accept loop, stop -/

/-- The function `CommandServer::start(serverPort, serverAddr)`, given whether
`open`, `bind` and `listen` succeed when they are called: the new state and the
returned flag. The accept-loop thread it creates runs `acceptIteration`. -/
def CommandServer.start (openOk bindOk listenOk : Bool) (serverPort : Nat)
    (serverAddr : String) (s : CommandServer) : CommandServer × Bool :=
  if !openOk then (s, false)
  else
    let s1 : CommandServer :=
      { s with mSocket := { s.mSocket with address := serverAddr, port := serverPort,
                                           opened := true } }
    if !bindOk then (s1, false)
    else if !listenOk then (s1, false)
    else
      ({ s1 with mRunning := true, mBootstrapServerThread := some { joinable := true },
                 mState := .SERVER }, true)

/-- A connection returned by `mSocket.accept` together with the outcome of the
first `recv` on it: the `int` result and the contents of the array `message`
after the call (its first `bytesRecv` bytes are the received ones). -/
structure Accepted where
  socket : Socket
  bytesRecv : Int
  message : Buffer

/-- One iteration of the accept loop `while (mRunning)` of
`CommandServer::start`; `acc` is `none` when `accept` reports no connection.
The two `memcpy` calls store `mVersion` and `mRevision` in host byte order
(little-endian). A registered connection gets its reader thread, which runs
`serverReaderStep`. -/
def CommandServer.acceptIteration (t : Tags) (net : SendOracle) (s : CommandServer)
    (acc : Option Accepted) : CommandServer × List SendCall :=
  if !s.mRunning then (s, [])
  else
    match acc with
    | none => (s, [])
    | some a =>
      if 0 < a.bytesRecv ∧ a.bytesRecv < 1025 then
        if a.message 0 = t.HANDSHAKE then
          let version :=
            if a.bytesRecv ≥ 9 then Convert.from_bytes16 (a.message.offset 1) else 0
          let revision :=
            if a.bytesRecv ≥ 9 then Convert.from_bytes16 (a.message.offset 5) else 0
          let message := ((((((a.message.set 0 t.HANDSHAKE_ACK).set 1 0).set 2
            (s.mVersion % 2 ^ 8)).set 3 (s.mVersion / 2 ^ 8 % 2 ^ 8)).set 4
            (s.mRevision % 2 ^ 8)).set 5 (s.mRevision / 2 ^ 8 % 2 ^ 8))
          let call := doSend net a.socket message 2
          ({ s with mServerConnections := s.mServerConnections ++ [a.socket],
                    mConnectionVersions := s.mConnectionVersions ++ [(version, revision)],
                    mConnectionThreads := s.mConnectionThreads ++ [{ joinable := true }] },
           [call])
        else (s, [])
      else (s, [])

/-- The `if (mBootstrapServerThread) mBootstrapServerThread->join();` of
`CommandServer::stop`. -/
def joinBootstrap : Option Thread → Except Error (Option Thread)
  | none => .ok none
  | some th => do
    let th1 ← th.join
    pure (some th1)

/-- The function `CommandServer::stop()`: an error is the exception of a
`join()`, otherwise the state when the call returns. -/
def CommandServer.stop (s : CommandServer) : Except Error CommandServer := do
  let s1 : CommandServer := { s with mRunning := false, mSocket := s.mSocket.close }
  let boot ← joinBootstrap s1.mBootstrapServerThread
  let connections := s1.mServerConnections.map Socket.close
  let threads ← joinAll s1.mConnectionThreads
  pure { s1 with mBootstrapServerThread := boot, mServerConnections := connections,
                 mConnectionThreads := threads, mState := .NONE }

/-- The function `CommandConnection::stop()`, which a `CommandClient` inherits. -/
def CommandConnection.stop (c : CommandConnection) : Except Error CommandConnection := do
  let c1 : CommandConnection := { c with mRunning := false, mSocket := c.mSocket.close }
  let threads ← joinAll c1.mConnectionThreads
  pure { c1 with mConnectionThreads := threads, mState := .NONE }

/-- The polling loop `while (targetTime >= currentTime)` of
`CommandServer::waitForConnections`: `polls` holds the registry as read at the
start of each iteration entered before the deadline, `totalConnections` the
size read last; `existingConnections` is the constant 0 of the source. -/
def waitLoop (connectionCount : Nat) : List CommandServer → Nat → Nat
  | [], totalConnections => (totalConnections - 0) % 2 ^ 16
  | s :: rest, _ =>
    let totalConnections := s.mServerConnections.length
    if totalConnections - 0 < connectionCount then waitLoop connectionCount rest totalConnections
    else (totalConnections - 0) % 2 ^ 16

/-- The function `CommandServer::waitForConnections(connectionCount, timeout)`
on the server `s`, where `polls` are the states of the server at the polls made
before the deadline (the clock and the sleeps are not part of the model). The
result is a `uint16_t`. -/
def CommandServer.waitForConnections (s : CommandServer) (connectionCount : Nat)
    (polls : List CommandServer) : Nat :=
  if s.mState = .SERVER then waitLoop connectionCount polls s.mServerConnections.length
  else 0

/-! ## Client: start and handshake -/

/-- The array `message` that the worker of `CommandClient::start` sends as
handshake: the tag, the two bytes of `mSocket.port()`, five zero bytes. -/
def CommandClient.handshakeMessage (t : Tags) (c : CommandClient) : Buffer :=
  let b := Convert.to_bytes16 c.mSocket.port
  Buffer.ofList [t.HANDSHAKE, b.getD 0 0, b.getD 1 0, 0, 0, 0, 0, 0]

/-- What the environment decides during `CommandClient::start`: whether `open`
and `connect` succeed, the result of the `recv` that waits for the reply and
the bytes it stored. -/
structure HandshakeEnv where
  openOk : Bool
  connectOk : Bool
  bytesRecv : Nat
  data : List Nat

/-- The outcome of `CommandClient::start`: the client state, the sends made,
whether the worker reached `cv.notify_one()`, whether the worker goes on into
the read loop, and the value returned (`none` when `cv.wait` is never
signalled, so that `start` does not return). -/
structure StartResult where
  client : CommandClient
  sends : List SendCall
  signalled : Bool
  readLoop : Bool
  returned : Option Bool

/-- The function `CommandClient::start(serverPort, serverAddr)` with its worker
thread run up to the read loop. The caller holds `lk` until it waits in
`cv.wait(lk)`, so the worker's `notify_one` cannot come too early; the caller
returns `true` once signalled (a spurious wake-up of `cv.wait` is not
modelled). -/
def CommandClient.start (t : Tags) (net : SendOracle) (env : HandshakeEnv) (serverPort : Nat)
    (serverAddr : String) (c : CommandClient) : StartResult :=
  if !env.openOk then
    { client := c, sends := [], signalled := false, readLoop := false, returned := some false }
  else
    let c1 : CommandClient :=
      { c with mSocket := { c.mSocket with address := serverAddr, port := serverPort,
                                           opened := true },
               mConnectionThreads := c.mConnectionThreads ++ [{ joinable := true }] }
    if !env.connectOk then
      { client := c1, sends := [], signalled := false, readLoop := false, returned := none }
    else
      let c2 : CommandClient := { c1 with mState := .CLIENT, mRunning := true }
      let message := CommandClient.handshakeMessage t c2
      let call := doSend net c2.mSocket message 8
      let message1 := message.recvInto 0 env.data
      if env.bytesRecv = 2 ∧ message1 0 = t.HANDSHAKE_ACK then
        { client := { c2 with mRunning := true }, sends := [call], signalled := true,
          readLoop := true, returned := some true }
      else
        { client := c2, sends := [call], signalled := false, readLoop := false,
          returned := none }

/-! ## Read loops -/

/-- Modelled from the spec: the class `Message` is declared outside the
sources; it is a read-only view `{buffer, cursor, length}` over the bytes of one
receive, with `cursor <= length`, whose reads advance the cursor. -/
structure Message where
  buffer : List Nat
  length : Nat
  cursor : Nat
deriving DecidableEq, Repr

/-- The constructor `Message(commandMessage, bytes)`: a view of the first
`bytes` bytes of the array, with the cursor at 0. -/
def Message.mk0 (commandMessage : Buffer) (bytes : Nat) : Message :=
  { buffer := commandMessage.view bytes, length := bytes, cursor := 0 }

/-- Modelled from the spec: `remainingBytes()`, the bytes not yet consumed,
`length - cursor`. -/
def Message.remainingBytes (m : Message) : Nat := m.length - m.cursor

/-- The virtual `processIncomingMessage(message, src)`, for the socket of the
loop that calls it: from the message as constructed to the reported flag and
the position of the cursor after the call. -/
abbrev Hook := Message → Bool × Nat

/-- One invocation of the hook: the message it was given, the flag it reported
and the cursor it left. -/
structure Dispatch where
  message : Message
  ok : Bool
  cursor : Nat
deriving DecidableEq, Repr

/-- What the environment decides in one iteration of a read loop: the outcome
of `recv(commandMessage + bufferSize, 1024)`, that is the `size_t` result and
the bytes stored at the offset, and `overlapped`, the bytes that the C library
leaves in the destination if the `memcpy` of this iteration is called on
regions that overlap (zeros unless stated). -/
structure Recv where
  bytes : Nat
  data : List Nat
  overlapped : Buffer := fun _ => 0

/-- A receive that delivers exactly the bytes `data`, in an iteration where a
`memcpy` on overlapping regions leaves `overlapped` in its destination. -/
def Recv.okWith (data : List Nat) (overlapped : Buffer) : Recv :=
  { bytes := data.length, data := data, overlapped := overlapped }

/-- A receive that delivers exactly the bytes `data`. -/
def Recv.ok (data : List Nat) : Recv := { bytes := data.length, data := data }

/-- The locals of a read loop (`commandMessage`, `bufferSize`) and the shared
flag `mRunning`. -/
structure ReaderState where
  commandMessage : Buffer
  bufferSize : Nat
  mRunning : Bool

/-- The local state at the start of a read loop, over an array with arbitrary
contents. -/
def ReaderState.init (commandMessage : Buffer) : ReaderState :=
  { commandMessage := commandMessage, bufferSize := 0, mRunning := true }

/-- What a part of a read loop did: the state it left, the hook invocations and
the sends, in order. -/
structure LoopResult where
  state : ReaderState
  dispatches : List Dispatch
  sends : List SendCall

/-- The dispatch and compaction common to both loops (source lines 190-210 and
382-399): build the `Message`, call the hook; on failure leave the buffer and
the offset `bufferSize` as they are, on success call
`memcpy(commandMessage, message.data(), message.remainingBytes())` and make the
count of the remaining bytes the next offset. -/
def dispatchAndCompact (hook : Hook) (commandMessage : Buffer) (bufferSize bytes : Nat)
    (mRunning : Bool) (overlapped : Buffer) : LoopResult :=
  let message := Message.mk0 commandMessage bytes
  let r := hook message
  let after : Message := { message with cursor := r.2 }
  let d : Dispatch := { message := message, ok := r.1, cursor := r.2 }
  if !r.1 then
    { state := { commandMessage := commandMessage, bufferSize := bufferSize,
                 mRunning := mRunning },
      dispatches := [d], sends := [] }
  else if after.remainingBytes > 0 then
    { state := { commandMessage :=
                   commandMessage.memcpy after.cursor after.remainingBytes overlapped,
                 bufferSize := after.remainingBytes, mRunning := mRunning },
      dispatches := [d], sends := [] }
  else
    { state := { commandMessage := commandMessage, bufferSize := 0, mRunning := mRunning },
      dispatches := [d], sends := [] }

/-- One iteration of the reader-thread loop of `CommandServer::start` (source
lines 174-217), entered with `mRunning` true, for the outcome `r` of its
`recv`. -/
def serverReaderStep (t : Tags) (hook : Hook) (s : ReaderState) (r : Recv) : LoopResult :=
  let commandMessage := s.commandMessage.recvInto s.bufferSize r.data
  let bytes := r.bytes
  if bytes > 0 ∧ bytes < 1025 then
    if commandMessage 0 = t.PONG then
      { state := { s with commandMessage := commandMessage }, dispatches := [], sends := [] }
    else if commandMessage 0 = t.GOODBYE then
      { state := { s with commandMessage := commandMessage }, dispatches := [], sends := [] }
    else if commandMessage 0 = t.HANDSHAKE then
      { state := { s with commandMessage := commandMessage }, dispatches := [], sends := [] }
    else
      dispatchAndCompact hook commandMessage s.bufferSize bytes s.mRunning r.overlapped
  else if bytes ≠ SIZE_MAX ∧ bytes ≠ 0 then
    { state := { s with commandMessage := commandMessage, mRunning := false },
      dispatches := [], sends := [] }
  else
    { state := { s with commandMessage := commandMessage }, dispatches := [], sends := [] }

/-- The function `CommandClient::clientHandlePing(client)`: one send of the two
bytes `{PONG, 0}`; a short count is only logged. -/
def clientHandlePing (t : Tags) (net : SendOracle) (client : Socket) : List SendCall :=
  [doSend net client (Buffer.ofList [t.PONG, 0]) 2]

/-- One iteration of the read loop of `CommandClient::start` (source lines
371-404), entered with `mRunning` true, for the outcome `r` of its `recv` on
the socket `mSocket`. -/
def clientReaderStep (t : Tags) (net : SendOracle) (mSocket : Socket) (hook : Hook)
    (s : ReaderState) (r : Recv) : LoopResult :=
  let commandMessage := s.commandMessage.recvInto s.bufferSize r.data
  let bytes := r.bytes
  if bytes > 0 ∧ bytes < 1025 then
    let bufferSize := s.bufferSize + bytes
    if commandMessage 0 = t.PING then
      { state := { s with commandMessage := commandMessage, bufferSize := bufferSize },
        dispatches := [], sends := clientHandlePing t net mSocket }
    else
      dispatchAndCompact hook commandMessage bufferSize bytes s.mRunning r.overlapped
  else if bytes ≠ SIZE_MAX ∧ bytes ≠ 0 then
    { state := { s with commandMessage := commandMessage }, dispatches := [], sends := [] }
  else
    { state := { s with commandMessage := commandMessage }, dispatches := [], sends := [] }

/-- Run a loop `while (mRunning) { step }` over the successive outcomes of its
`recv`, collecting what the iterations did; the loop is left when `mRunning` is
false at the test. -/
def runLoop (step : ReaderState → Recv → LoopResult) : ReaderState → List Recv → LoopResult
  | s, [] => { state := s, dispatches := [], sends := [] }
  | s, r :: rest =>
    if s.mRunning then
      let o := step s r
      let o1 := runLoop step o.state rest
      { state := o1.state, dispatches := o.dispatches ++ o1.dispatches,
        sends := o.sends ++ o1.sends }
    else { state := s, dispatches := [], sends := [] }

/-- The reader-thread loop of the server over a sequence of receives. -/
def serverReaderRun (t : Tags) (hook : Hook) : ReaderState → List Recv → LoopResult :=
  runLoop (serverReaderStep t hook)

/-- The read loop of the client over a sequence of receives. -/
def clientReaderRun (t : Tags) (net : SendOracle) (mSocket : Socket) (hook : Hook) :
    ReaderState → List Recv → LoopResult :=
  runLoop (clientReaderStep t net mSocket hook)

/-- A hook for messages of three bytes (a tag and two payload bytes): it reads
one message, and fails without consuming anything when fewer than three bytes
remain. -/
def threeByteHook : Hook := fun m => if m.length ≥ 3 then (true, 3) else (false, 0)

/-- Run a loop `while (mRunning) { step }` over the successive outcomes of its
`recv` when the hook may answer each call in its own way: every iteration comes
with the behaviour of `processIncomingMessage` at that call. -/
def runLoopHooks (step : Hook → ReaderState → Recv → LoopResult) :
    ReaderState → List (Hook × Recv) → LoopResult
  | s, [] => { state := s, dispatches := [], sends := [] }
  | s, e :: rest =>
    if s.mRunning then
      let o := step e.1 s e.2
      let o1 := runLoopHooks step o.state rest
      { state := o1.state, dispatches := o.dispatches ++ o1.dispatches,
        sends := o.sends ++ o1.sends }
    else { state := s, dispatches := [], sends := [] }

/-- The reader-thread loop of the server, the hook varying from call to call. -/
def serverReaderRunHooks (t : Tags) : ReaderState → List (Hook × Recv) → LoopResult :=
  runLoopHooks (serverReaderStep t)

/-- The effect on the server of one iteration of one of its reader threads
(source lines 174-217): the thread has its own array and offset `loc` and shares
with the server only the flag `mRunning`, which it tests before the iteration
and may clear in it. -/
def CommandServer.readerIteration (t : Tags) (hook : Hook) (s : CommandServer)
    (loc : ReaderState) (r : Recv) : CommandServer :=
  if s.mRunning then
    { s with mRunning := (serverReaderStep t hook { loc with mRunning := true } r).state.mRunning }
  else s

/-- The server states reached from a server before `start()` by calls of
`start`, iterations of the accept loop, iterations of reader threads and calls
of `stop` that return. -/
inductive CommandServer.Reachable (t : Tags) (net : SendOracle) : CommandServer → Prop where
  | fresh (sock : Socket) (version revision : Nat) :
    CommandServer.Reachable t net (CommandServer.fresh sock version revision)
  | start (openOk bindOk listenOk : Bool) (serverPort : Nat) (serverAddr : String)
    (s : CommandServer) (h : CommandServer.Reachable t net s) :
    CommandServer.Reachable t net
      (CommandServer.start openOk bindOk listenOk serverPort serverAddr s).1
  | accept (s : CommandServer) (acc : Option Accepted) (h : CommandServer.Reachable t net s) :
    CommandServer.Reachable t net (CommandServer.acceptIteration t net s acc).1
  | reader (hook : Hook) (s : CommandServer) (loc : ReaderState) (r : Recv)
    (h : CommandServer.Reachable t net s) :
    CommandServer.Reachable t net (CommandServer.readerIteration t hook s loc r)
  | stop (s s1 : CommandServer) (h : CommandServer.Reachable t net s)
    (hs : s.stop = .ok s1) : CommandServer.Reachable t net s1

/-! ## Locking of the connection registry -/

/-- What an operation does to the mutex `mConnectionsLock` and to the registry
`mServerConnections`, in program order. -/
inductive RegistryEvent where
  | lock
  | unlock
  | read
  | write
deriving DecidableEq, Repr

/-- Whether every access to the registry in a sequence of events is made while
the mutex is held, `held` telling whether it is held at the start. -/
def lockedAccess : Bool → List RegistryEvent → Bool
  | _, [] => true
  | _, .lock :: rest => lockedAccess true rest
  | _, .unlock :: rest => lockedAccess false rest
  | held, .read :: rest => held && lockedAccess held rest
  | held, .write :: rest => held && lockedAccess held rest

/-- The loop `for (auto connection : mServerConnections)` over a registry of
`n` entries: the vector is read for its bounds and once for each entry. -/
def enumerateRegistry (n : Nat) : List RegistryEvent :=
  .read :: List.replicate n .read

/-- The events of the registration in the accept loop (source lines 164-168):
`lock(); emplace_back(...); unlock();`. -/
def CommandServer.registrationEvents : List RegistryEvent :=
  [.lock, .write, .unlock]

/-- The events of `CommandServer::sendMessage` (source lines 295-322): nothing
for a length of 0 or a given `dst`, otherwise the loop over the registry; the
function never touches the mutex. -/
def CommandServer.sendMessageEvents (s : CommandServer) (length : Nat)
    (dst : Option Socket) : List RegistryEvent :=
  if length = 0 then []
  else
    match dst with
    | none => enumerateRegistry s.mServerConnections.length
    | some _ => []

/-- The events of `CommandServer::ping` (source lines 59-92):
`lock(); for (auto listener : mServerConnections) {...} unlock();`. -/
def CommandServer.pingEvents (s : CommandServer) : List RegistryEvent :=
  [.lock] ++ enumerateRegistry s.mServerConnections.length ++ [.unlock]

/-- The events of `CommandServer::connectionCount` (source lines 94-99):
`lock(); size(); unlock();`. -/
def CommandServer.connectionCountEvents : List RegistryEvent :=
  [.lock, .read, .unlock]

/-- The events of `CommandServer::waitForConnections` (source lines 261-293) in
role `SERVER`, making `polls` iterations of its loop: `lock(); size();
unlock();` before the loop and in each iteration. -/
def CommandServer.waitForConnectionsEvents (s : CommandServer) (polls : Nat) :
    List RegistryEvent :=
  if s.mState = .SERVER then
    [.lock, .read, .unlock] ++ (List.replicate polls [.lock, .read, .unlock]).flatten
  else []

/-- The events of `CommandServer::stop` (source lines 242-259): the loop that
closes the registered sockets runs between `lock()` and `unlock()`. -/
def CommandServer.stopEvents (s : CommandServer) : List RegistryEvent :=
  [.lock] ++ enumerateRegistry s.mServerConnections.length ++ [.unlock]

/-! ## Concrete objects used in the examples -/

/-- A listening socket, not yet opened. -/
def demoListen : Socket := { fd := 3, address := "", port := 0, opened := false }

/-- The first of three accepted peer sockets. -/
def demoPeerA : Socket := { fd := 4, address := "10.0.0.2", port := 50001, opened := true }

/-- The second peer socket. -/
def demoPeerB : Socket := { fd := 5, address := "10.0.0.3", port := 50002, opened := true }

/-- The third peer socket. -/
def demoPeerC : Socket := { fd := 6, address := "10.0.0.4", port := 50003, opened := true }

/-- A network on which every send is complete. -/
def demoNet : SendOracle := fun _ n => n

/-- A server on which `start()` succeeded. -/
def demoServer : CommandServer :=
  (CommandServer.start true true true 9000 "0.0.0.0" (CommandServer.fresh demoListen 1 0)).1

/-- The started server after the accept loop registered one peer that sent an
8-byte handshake. -/
def demoServerOnePeer : CommandServer :=
  (CommandServer.acceptIteration specTags demoNet demoServer
    (some { socket := demoPeerA, bytesRecv := 8,
            message := Buffer.ofList [0, 40, 35, 0, 0, 0, 0, 0] })).1

/-- The handshake message of eight bytes, as received by the accept loop. -/
def demoHandshake : Buffer := Buffer.ofList [0, 40, 35, 0, 0, 0, 0, 0]

/-- The started server after the accept loop registered the three peers, each
having sent an 8-byte handshake. -/
def demoServerThreePeers : CommandServer :=
  (CommandServer.acceptIteration specTags demoNet
    (CommandServer.acceptIteration specTags demoNet
      (CommandServer.acceptIteration specTags demoNet demoServer
        (some { socket := demoPeerA, bytesRecv := 8, message := demoHandshake })).1
      (some { socket := demoPeerB, bytesRecv := 8, message := demoHandshake })).1
    (some { socket := demoPeerC, bytesRecv := 8, message := demoHandshake })).1

/-- A network on which a send to the second peer comes up one byte short. -/
def demoShortNet : SendOracle := fun p n => if p.fd = 5 then n - 1 else n

/-- A client before `start()`. -/
def demoClient : CommandClient := CommandConnection.fresh demoListen 1 0

/-- The client after a `start()` whose handshake was answered with the two
bytes `{HANDSHAKE_ACK, 0}`. -/
def demoClientStarted : CommandClient :=
  (CommandClient.start specTags demoNet
    { openOk := true, connectOk := true, bytesRecv := 2, data := [1, 0] }
    9000 "10.0.0.1" demoClient).client

/-! ## Auxiliary lemmas -/

theorem notExcluded_some_iff (p : Socket) (v : ValueSource) :
    notExcluded p (some v) = true ↔ ¬ (p.address = v.ipAddr ∧ p.port = v.port) := by
  simp only [notExcluded, bne_iff_ne, Bool.or_eq_true, ne_eq]
  tauto

theorem broadcast_sends (net : SendOracle) (message : Buffer) (length : Nat)
    (src : Option ValueSource) (l : List Socket) (ret : Bool) :
    (broadcast net message length src l ret).2 =
      (l.filter (fun p => notExcluded p src)).map (fun p => doSend net p message length) := by
  induction l generalizing ret with
  | nil => rfl
  | cons p rest ih =>
    by_cases hp : notExcluded p src = true
    · simp [broadcast, hp, ih]
    · simp [broadcast, hp, ih]

theorem broadcast_ret (net : SendOracle) (message : Buffer) (length : Nat)
    (src : Option ValueSource) (l : List Socket) (ret : Bool) :
    (broadcast net message length src l ret).1 =
      (ret && (l.filter (fun p => notExcluded p src)).all (fun p => net p length == length)) := by
  induction l generalizing ret with
  | nil => simp [broadcast]
  | cons p rest ih =>
    by_cases hp : notExcluded p src = true
    · simp [broadcast, hp, ih, doSend, Bool.and_assoc]
    · simp [broadcast, hp, ih]

/-! ## Sending: theorems -/

/-- C4. Broadcast self-exclusion: with `dst` absent, a message of length > 0 and
an exclude value `{ip, port}`, `CommandServer::sendMessage` sends nothing to a
registered peer whose address and port both match, and its sends are exactly
one send of the full message (same bytes, same length) per other registered
peer, in registry order. -/
theorem C4_broadcast_self_exclusion (net : SendOracle) (s : CommandServer) (message : Buffer)
    (length : Nat) (v : ValueSource) (hlen : 0 < length) :
    (∀ call ∈ (CommandServer.sendMessage net s message length none (some v)).2,
        ¬ (call.dst.address = v.ipAddr ∧ call.dst.port = v.port)) ∧
    (CommandServer.sendMessage net s message length none (some v)).2 =
      (s.mServerConnections.filter
          (fun p => decide (¬ (p.address = v.ipAddr ∧ p.port = v.port)))).map
        (fun p => { dst := p, bytes := message.view length, length := length,
                    result := net p length }) := by
  have h0 : length ≠ 0 := Nat.pos_iff_ne_zero.mp hlen
  have hf : (fun p => notExcluded p (some v)) =
      (fun p : Socket => decide (¬ (p.address = v.ipAddr ∧ p.port = v.port))) := by
    funext p
    rw [Bool.eq_iff_iff, notExcluded_some_iff, decide_eq_true_iff]
  have hs : (CommandServer.sendMessage net s message length none (some v)).2 =
      (s.mServerConnections.filter
          (fun p => decide (¬ (p.address = v.ipAddr ∧ p.port = v.port)))).map
        (fun p => doSend net p message length) := by
    simp only [CommandServer.sendMessage, h0, if_false, broadcast_sends, hf]
  refine ⟨?_, hs⟩
  intro call hcall
  rw [hs, List.mem_map] at hcall
  obtain ⟨p, hp, rfl⟩ := hcall
  exact of_decide_eq_true (List.mem_filter.mp hp).2

/-- A use of C4: a registry of three peers, the second one excluded. -/
theorem C4_broadcast_self_exclusion_witness :
    (∀ call ∈ (CommandServer.sendMessage demoNet demoServerThreePeers
        (Buffer.ofList [5, 65, 66]) 3 none (some ⟨"10.0.0.3", 50002⟩)).2,
        ¬ (call.dst.address = "10.0.0.3" ∧ call.dst.port = 50002)) ∧
    (CommandServer.sendMessage demoNet demoServerThreePeers
        (Buffer.ofList [5, 65, 66]) 3 none (some ⟨"10.0.0.3", 50002⟩)).2 =
      [{ dst := demoPeerA, bytes := [5, 65, 66], length := 3, result := 3 },
       { dst := demoPeerC, bytes := [5, 65, 66], length := 3, result := 3 }] :=
  ⟨(C4_broadcast_self_exclusion demoNet demoServerThreePeers (Buffer.ofList [5, 65, 66]) 3
      ⟨"10.0.0.3", 50002⟩ (by decide)).1, by decide⟩

/-- C5. With `dst` absent and length > 0, `CommandServer::sendMessage` attempts
one send per registered peer that is not excluded and returns true if and only
if every send it attempted reported exactly `length` bytes; so it returns true
when the registry is empty and when every peer is excluded. -/
theorem C5_broadcast_returns_and_of_sends (net : SendOracle) (s : CommandServer)
    (message : Buffer) (length : Nat) (src : Option ValueSource) (hlen : 0 < length) :
    ((CommandServer.sendMessage net s message length none src).2.map SendCall.dst =
        s.mServerConnections.filter (fun p => notExcluded p src)) ∧
    ((CommandServer.sendMessage net s message length none src).1 = true ↔
        ∀ call ∈ (CommandServer.sendMessage net s message length none src).2,
          call.result = length) ∧
    (s.mServerConnections = [] →
        (CommandServer.sendMessage net s message length none src).1 = true) ∧
    ((∀ p ∈ s.mServerConnections, notExcluded p src = false) →
        (CommandServer.sendMessage net s message length none src) = (true, [])) := by
  have h0 : length ≠ 0 := Nat.pos_iff_ne_zero.mp hlen
  have hs : (CommandServer.sendMessage net s message length none src).2 =
      (s.mServerConnections.filter (fun p => notExcluded p src)).map
        (fun p => doSend net p message length) := by
    simp only [CommandServer.sendMessage, h0, if_false, broadcast_sends]
  have hr : (CommandServer.sendMessage net s message length none src).1 =
      (s.mServerConnections.filter (fun p => notExcluded p src)).all
        (fun p => net p length == length) := by
    simp only [CommandServer.sendMessage, h0, if_false, broadcast_ret, Bool.true_and]
  refine ⟨?_, ?_, ?_, ?_⟩
  · rw [hs, List.map_map]
    have : (SendCall.dst ∘ fun p => doSend net p message length) = id := by
      funext p; rfl
    rw [this, List.map_id]
  · rw [hs, hr, List.all_eq_true]
    constructor
    · intro h call hcall
      obtain ⟨p, hp, rfl⟩ := List.mem_map.mp hcall
      simpa [doSend] using h p hp
    · intro h p hp
      have := h (doSend net p message length) (List.mem_map.mpr ⟨p, hp, rfl⟩)
      simpa [doSend] using this
  · intro hnil
    rw [hr, hnil]
    rfl
  · intro hall
    have hfil : s.mServerConnections.filter (fun p => notExcluded p src) = [] := by
      rw [List.filter_eq_nil_iff]
      intro p hp
      simp [hall p hp]
    apply Prod.ext
    · rw [hr, hfil]; rfl
    · rw [hs, hfil]; rfl

/-- A use of C5: three peers, the send to the second one comes up short, so the
broadcast returns false. -/
theorem C5_broadcast_returns_and_of_sends_witness :
    (CommandServer.sendMessage demoShortNet demoServerThreePeers
        (Buffer.ofList [5, 65, 66]) 3 none none).1 = false ∧
    ((CommandServer.sendMessage demoShortNet demoServerThreePeers
        (Buffer.ofList [5, 65, 66]) 3 none none).1 = true ↔
      ∀ call ∈ (CommandServer.sendMessage demoShortNet demoServerThreePeers
        (Buffer.ofList [5, 65, 66]) 3 none none).2, call.result = 3) :=
  ⟨by decide,
   (C5_broadcast_returns_and_of_sends demoShortNet demoServerThreePeers
      (Buffer.ofList [5, 65, 66]) 3 none (by decide)).2.1⟩

/-- C6. Both `CommandServer::sendMessage` and `CommandClient::sendMessage`,
called with length 0, return false and perform no send, whatever the registry,
`dst` and the exclude value. -/
theorem C6_zero_length_rejected (net : SendOracle) (s : CommandServer) (c : CommandClient)
    (message : Buffer) (dst : Option Socket) (src : Option ValueSource) :
    CommandServer.sendMessage net s message 0 dst src = (false, []) ∧
    CommandClient.sendMessage net c message 0 dst src = (false, []) := by
  constructor
  · simp [CommandServer.sendMessage]
  · simp [CommandClient.sendMessage]

/-- C7. Targeted send: with `dst` given and length > 0,
`CommandServer::sendMessage` performs exactly one send, of the message to
`dst`; it sends to no registered peer other than `dst`, the result does not
depend on the exclude argument, and it returns true if and only if that send
reported exactly `length` bytes. -/
theorem C7_targeted_send (net : SendOracle) (s : CommandServer) (message : Buffer)
    (length : Nat) (dst : Socket) (src : Option ValueSource) (hlen : 0 < length) :
    (CommandServer.sendMessage net s message length (some dst) src).2 =
        [{ dst := dst, bytes := message.view length, length := length,
           result := net dst length }] ∧
    (∀ p ∈ s.mServerConnections, p ≠ dst →
        ∀ call ∈ (CommandServer.sendMessage net s message length (some dst) src).2,
          call.dst ≠ p) ∧
    (∀ src1 : Option ValueSource,
        CommandServer.sendMessage net s message length (some dst) src1 =
          CommandServer.sendMessage net s message length (some dst) src) ∧
    ((CommandServer.sendMessage net s message length (some dst) src).1 = true ↔
        net dst length = length) := by
  have h0 : length ≠ 0 := Nat.pos_iff_ne_zero.mp hlen
  refine ⟨?_, ?_, ?_, ?_⟩
  · simp [CommandServer.sendMessage, h0, doSend]
  · intro p _ hne call hcall
    simp only [CommandServer.sendMessage, h0, if_false, doSend, List.mem_singleton] at hcall
    rw [hcall]
    exact fun h => hne h.symm
  · intro src1
    simp [CommandServer.sendMessage, h0]
  · simp [CommandServer.sendMessage, h0, doSend]

/-- A use of C7: a reply to the second of three registered peers, with an
exclude value that names this very peer. -/
theorem C7_targeted_send_witness :
    (CommandServer.sendMessage demoNet demoServerThreePeers
        (Buffer.ofList [5, 65, 66]) 3 (some demoPeerB) (some ⟨"10.0.0.3", 50002⟩)).2 =
      [{ dst := demoPeerB, bytes := [5, 65, 66], length := 3, result := 3 }] :=
  (C7_targeted_send demoNet demoServerThreePeers (Buffer.ofList [5, 65, 66]) 3 demoPeerB
    (some ⟨"10.0.0.3", 50002⟩) (by decide)).1

/-! ## Start and stop: theorems -/

theorem joinAll_ok_of_joinable (l : List Thread) (h : ∀ th ∈ l, th.joinable = true) :
    joinAll l = .ok (l.map (fun _ => { joinable := false })) := by
  induction l with
  | nil => rfl
  | cons th rest ih =>
    have h1 : th.joinable = true := h th (List.mem_cons_self _ _)
    have h2 := ih (fun x hx => h x (List.mem_cons_of_mem _ hx))
    simp only [joinAll, Thread.join, h1, if_true, h2, List.map_cons]
    rfl

theorem joinAll_ok_inv (l l1 : List Thread) (h : joinAll l = .ok l1) :
    l1 = l.map (fun _ => { joinable := false }) := by
  induction l generalizing l1 with
  | nil =>
    simp only [joinAll] at h
    cases h
    rfl
  | cons th rest ih =>
    simp only [joinAll, Thread.join] at h
    by_cases hj : th.joinable = true
    · simp only [hj, if_true] at h
      cases hr : joinAll rest with
      | error e => rw [hr] at h; cases h
      | ok r =>
        rw [hr] at h
        cases h
        rw [List.map_cons, ← ih r hr]
    · simp only [hj] at h
      cases h

theorem joinAll_joined_error (l : List Thread) (hne : l ≠ []) :
    joinAll (l.map (fun _ => ({ joinable := false } : Thread))) = .error .joinNotJoinable := by
  cases l with
  | nil => exact absurd rfl hne
  | cons th rest => rfl

theorem commandConnection_stop_eq (c : CommandConnection) :
    CommandConnection.stop c =
      match joinAll c.mConnectionThreads with
      | .error e => .error e
      | .ok threads =>
        .ok { c with mRunning := false, mSocket := c.mSocket.close,
                     mConnectionThreads := threads, mState := .NONE } := by
  dsimp only [CommandConnection.stop]
  cases joinAll c.mConnectionThreads <;> rfl

theorem commandServer_stop_eq (s : CommandServer) :
    CommandServer.stop s =
      match joinBootstrap s.mBootstrapServerThread with
      | .error e => .error e
      | .ok boot =>
        match joinAll s.mConnectionThreads with
        | .error e => .error e
        | .ok threads =>
          .ok { s with mRunning := false, mSocket := s.mSocket.close,
                       mBootstrapServerThread := boot,
                       mServerConnections := s.mServerConnections.map Socket.close,
                       mConnectionThreads := threads, mState := .NONE } := by
  dsimp only [CommandServer.stop]
  cases joinBootstrap s.mBootstrapServerThread with
  | error e => rfl
  | ok boot => cases joinAll s.mConnectionThreads <;> rfl

/-- C10. The function `CommandServer::start` returns true if and only if open,
bind and listen all succeed; when it returns false the running flag, the role
and the accept-loop thread are what they were before the call (so, on a server
that was not running, in role `NONE` and without accept-loop thread: still
false, still `NONE` and no thread); when it returns true the running flag is
true and the role is `SERVER`. -/
theorem C10_server_start_result (openOk bindOk listenOk : Bool) (serverPort : Nat)
    (serverAddr : String) (s : CommandServer) :
    ((CommandServer.start openOk bindOk listenOk serverPort serverAddr s).2 = true ↔
        (openOk = true ∧ bindOk = true ∧ listenOk = true)) ∧
    ((CommandServer.start openOk bindOk listenOk serverPort serverAddr s).2 = false →
        (CommandServer.start openOk bindOk listenOk serverPort serverAddr s).1.mRunning
            = s.mRunning ∧
        (CommandServer.start openOk bindOk listenOk serverPort serverAddr s).1.mState
            = s.mState ∧
        (CommandServer.start openOk bindOk listenOk serverPort serverAddr s).1.mBootstrapServerThread
            = s.mBootstrapServerThread) ∧
    ((CommandServer.start openOk bindOk listenOk serverPort serverAddr s).2 = false →
        s.mRunning = false → s.mState = .NONE → s.mBootstrapServerThread = none →
        (CommandServer.start openOk bindOk listenOk serverPort serverAddr s).1.mRunning
            = false ∧
        (CommandServer.start openOk bindOk listenOk serverPort serverAddr s).1.mState
            = .NONE ∧
        (CommandServer.start openOk bindOk listenOk serverPort serverAddr s).1.mBootstrapServerThread
            = none) ∧
    ((CommandServer.start openOk bindOk listenOk serverPort serverAddr s).2 = true →
        (CommandServer.start openOk bindOk listenOk serverPort serverAddr s).1.mRunning
            = true ∧
        (CommandServer.start openOk bindOk listenOk serverPort serverAddr s).1.mState
            = .SERVER) := by
  cases openOk <;> cases bindOk <;> cases listenOk <;> simp [CommandServer.start] <;>
    exact fun h1 h2 h3 => ⟨h1, h2, h3⟩

/-- C9 (as stated, refuted). A started server with one registered peer: `stop()`
returns, and afterwards `connectionCount()` is 1, not 0. -/
theorem C9_counterexample :
    ∃ s1, CommandServer.stop demoServerOnePeer = .ok s1 ∧
      demoServerOnePeer.connectionCount = 1 ∧ s1.connectionCount = 1 ∧
      ¬ (s1.connectionCount = 0) :=
  ⟨_, rfl, by decide, by decide, by decide⟩

/-- C9 (amended). For a server with `n` registered peers whose threads have not
been joined yet, `CommandServer::stop()` returns, and afterwards
`connectionCount()` still returns `n`: the registry holds the same entries, in
the same order, each one closed; it returns 0 exactly when `n = 0`. -/
theorem C9_stop_keeps_registry (s : CommandServer) (n : Nat)
    (hn : s.connectionCount = n)
    (hboot : ∀ th, s.mBootstrapServerThread = some th → th.joinable = true)
    (hthreads : ∀ th ∈ s.mConnectionThreads, th.joinable = true) :
    ∃ s1, CommandServer.stop s = .ok s1 ∧ s1.connectionCount = n ∧
      s1.mServerConnections = s.mServerConnections.map Socket.close ∧
      (s1.connectionCount = 0 ↔ n = 0) := by
  have hb : ∃ b, joinBootstrap s.mBootstrapServerThread = .ok b := by
    cases hbt : s.mBootstrapServerThread with
    | none => exact ⟨none, rfl⟩
    | some th =>
      have hj := hboot th hbt
      refine ⟨some { joinable := false }, ?_⟩
      simp only [joinBootstrap, Thread.join, hj, if_true]
      rfl
  obtain ⟨b, hb⟩ := hb
  have ht := joinAll_ok_of_joinable s.mConnectionThreads hthreads
  have hstop := commandServer_stop_eq s
  rw [hb, ht] at hstop
  refine ⟨_, hstop, ?_, rfl, ?_⟩
  · simpa [CommandServer.connectionCount] using hn
  · simp only [CommandServer.connectionCount, List.length_map]
    rw [← hn]
    rfl

/-- A use of the amended C9 on the server with one registered peer. -/
theorem C9_stop_keeps_registry_witness :
    ∃ s1, CommandServer.stop demoServerOnePeer = .ok s1 ∧ s1.connectionCount = 1 ∧
      s1.mServerConnections = demoServerOnePeer.mServerConnections.map Socket.close ∧
      (s1.connectionCount = 0 ↔ 1 = 0) :=
  C9_stop_keeps_registry demoServerOnePeer 1 (by decide) (by decide) (by decide)

/-- C8 (code evaluated at the failing inputs). On a server on which `start()`
succeeded, and on a client whose `start()` opened its socket, two consecutive
calls of `stop()` end in the error of joining a thread that is not joinable:
the second call is never a no-op. -/
theorem C8_second_stop_raises (t : Tags) (net : SendOracle) (env : HandshakeEnv)
    (serverPort : Nat) (serverAddr : String) (s : CommandServer) (c : CommandClient) :
    ((CommandServer.stop (CommandServer.start true true true serverPort serverAddr s).1)
        >>= CommandServer.stop) = .error .joinNotJoinable ∧
    ((CommandConnection.stop
        (CommandClient.start t net { env with openOk := true } serverPort serverAddr c).client)
        >>= CommandConnection.stop) = .error .joinNotJoinable := by
  have hbindS : ∀ a : CommandServer,
      ((Except.ok a : Except Error CommandServer) >>= CommandServer.stop)
        = CommandServer.stop a := fun _ => rfl
  have hbindC : ∀ a : CommandConnection,
      ((Except.ok a : Except Error CommandConnection) >>= CommandConnection.stop)
        = CommandConnection.stop a := fun _ => rfl
  constructor
  · have hstart : (CommandServer.start true true true serverPort serverAddr s).1.mBootstrapServerThread
        = some { joinable := true } := rfl
    rw [commandServer_stop_eq, hstart]
    have hb : joinBootstrap (some { joinable := true }) = .ok (some { joinable := false }) := rfl
    rw [hb]
    cases joinAll (CommandServer.start true true true serverPort serverAddr s).1.mConnectionThreads with
    | error e => cases e; rfl
    | ok l =>
      dsimp only
      rw [hbindS, commandServer_stop_eq]
      rfl
  · have key : ∀ c1 : CommandConnection, c1.mConnectionThreads ≠ [] →
        (CommandConnection.stop c1 >>= CommandConnection.stop) = .error .joinNotJoinable := by
      intro c1 hc
      rw [commandConnection_stop_eq]
      cases hj : joinAll c1.mConnectionThreads with
      | error e => cases e; rfl
      | ok l =>
        have hl := joinAll_ok_inv _ _ hj
        dsimp only
        rw [hbindC, commandConnection_stop_eq]
        dsimp only
        rw [hl, joinAll_joined_error _ hc]
    apply key
    unfold CommandClient.start
    simp only [Bool.not_true, Bool.false_eq_true, if_false]
    split_ifs <;> simp

/-! ## Buffers and read loops: lemmas -/

theorem Buffer.length_view (buf : Buffer) (n : Nat) : (buf.view n).length = n := by
  induction n with
  | zero => rfl
  | succ n ih => simp [Buffer.view, ih]

theorem Buffer.getElem_view (buf : Buffer) (n i : Nat) (h : i < (buf.view n).length) :
    (buf.view n)[i] = buf i := by
  induction n with
  | zero => simp [Buffer.view] at h
  | succ n ih =>
    have hl := Buffer.length_view buf n
    simp only [Buffer.view]
    by_cases hi : i < n
    · rw [List.getElem_append_left (by omega)]
      exact ih (by omega)
    · have hlen := Buffer.length_view buf (n + 1)
      have : i = n := by omega
      subst this
      rw [List.getElem_append_right (by omega)]
      simp [hl]

theorem Buffer.view_eq_of (buf : Buffer) (l : List Nat)
    (h : ∀ i (hi : i < l.length), buf i = l[i]) : buf.view l.length = l := by
  apply List.ext_getElem
  · exact Buffer.length_view buf l.length
  · intro i h1 h2
    rw [Buffer.getElem_view]
    exact h i h2

theorem Buffer.view_recvInto (buf : Buffer) (off : Nat) (data : List Nat) :
    (buf.recvInto off data).view (off + data.length) = buf.view off ++ data := by
  have hlen : (buf.view off ++ data).length = off + data.length := by
    simp [Buffer.length_view]
  rw [← hlen]
  apply Buffer.view_eq_of
  intro i hi
  rw [hlen] at hi
  by_cases h : i < off
  · rw [List.getElem_append_left (by simpa [Buffer.length_view] using h)]
    rw [Buffer.getElem_view]
    simp [Buffer.recvInto]
    omega
  · rw [List.getElem_append_right (by simpa [Buffer.length_view] using h)]
    simp only [Buffer.recvInto, Buffer.length_view]
    have h1 : off ≤ i ∧ i < off + data.length := ⟨by omega, hi⟩
    rw [if_pos h1]
    rw [List.getD_eq_getElem _ _ (by omega)]


theorem Buffer.view_ext (b1 b2 : Buffer) (n : Nat) (h : ∀ i, i < n → b1 i = b2 i) :
    b1.view n = b2.view n := by
  induction n with
  | zero => rfl
  | succ n ih =>
    simp only [Buffer.view]
    rw [ih (fun i hi => h i (by omega)), h n (by omega)]

theorem Buffer.recvInto_zero_head (buf : Buffer) (data : List Nat) (h : 0 < data.length) :
    (buf.recvInto 0 data) 0 = data.headD 0 := by
  cases data with
  | nil => simp at h
  | cons a rest => simp [Buffer.recvInto]

theorem Buffer.view_recvInto_zero (buf : Buffer) (data : List Nat) :
    (buf.recvInto 0 data).view data.length = data := by
  have := Buffer.view_recvInto buf 0 data
  simpa [Buffer.view] using this

theorem Buffer.view_memcpy (buf : Buffer) (src n : Nat) (ov : Buffer) (h : n ≤ src) :
    (buf.memcpy src n ov).view n = (buf.view (src + n)).drop src := by
  apply List.ext_getElem
  · simp [Buffer.length_view]
  · intro i h1 h2
    rw [Buffer.getElem_view, List.getElem_drop, Buffer.getElem_view]
    have : i < n := by simpa [Buffer.length_view] using h1
    simp [Buffer.memcpy, this, h]

theorem Buffer.view_memcpy_overlap (buf : Buffer) (src n : Nat) (ov : Buffer) (h : src < n) :
    (buf.memcpy src n ov).view n = ov.view n := by
  apply Buffer.view_ext
  intro i hi
  have hn : ¬ n ≤ src := by omega
  simp [Buffer.memcpy, hi, hn]

theorem isApplication_server (t : Tags) (b : Nat) (h : t.isApplication b) :
    b ≠ t.PONG ∧ b ≠ t.GOODBYE ∧ b ≠ t.HANDSHAKE := ⟨h.2.2.2.1, h.2.2.2.2, h.1⟩

theorem serverReaderStep_dispatch (t : Tags) (hook : Hook) (s : ReaderState) (r : Recv)
    (hb : 0 < r.bytes ∧ r.bytes < 1025)
    (hlead : t.isApplication ((s.commandMessage.recvInto s.bufferSize r.data) 0)) :
    serverReaderStep t hook s r =
      dispatchAndCompact hook (s.commandMessage.recvInto s.bufferSize r.data) s.bufferSize
        r.bytes s.mRunning r.overlapped := by
  obtain ⟨h1, h2, h3⟩ := isApplication_server t _ hlead
  simp only [serverReaderStep]
  rw [if_pos (show r.bytes > 0 ∧ r.bytes < 1025 from hb), if_neg h1, if_neg h2, if_neg h3]

theorem clientReaderStep_dispatch (t : Tags) (net : SendOracle) (mSocket : Socket) (hook : Hook)
    (s : ReaderState) (r : Recv) (hb : 0 < r.bytes ∧ r.bytes < 1025)
    (hlead : t.isApplication ((s.commandMessage.recvInto s.bufferSize r.data) 0)) :
    clientReaderStep t net mSocket hook s r =
      dispatchAndCompact hook (s.commandMessage.recvInto s.bufferSize r.data)
        (s.bufferSize + r.bytes) r.bytes s.mRunning r.overlapped := by
  simp only [clientReaderStep]
  rw [if_pos (show r.bytes > 0 ∧ r.bytes < 1025 from hb), if_neg hlead.2.2.1]

theorem dispatchAndCompact_dispatches (hook : Hook) (cm : Buffer) (bufferSize bytes : Nat)
    (run : Bool) (ov : Buffer) :
    (dispatchAndCompact hook cm bufferSize bytes run ov).dispatches =
      [{ message := Message.mk0 cm bytes, ok := (hook (Message.mk0 cm bytes)).1,
         cursor := (hook (Message.mk0 cm bytes)).2 }] := by
  simp only [dispatchAndCompact]
  split_ifs <;> rfl

theorem dispatchAndCompact_success (hook : Hook) (cm : Buffer) (bufferSize bytes c : Nat)
    (run : Bool) (ov : Buffer) (hh : hook (Message.mk0 cm bytes) = (true, c))
    (hc : c < bytes) :
    (dispatchAndCompact hook cm bufferSize bytes run ov).state =
      { commandMessage := cm.memcpy c (bytes - c) ov, bufferSize := bytes - c,
        mRunning := run } := by
  have hpos : bytes - c > 0 := by omega
  simp only [dispatchAndCompact, hh]
  simp [Message.remainingBytes, Message.mk0, hpos, hc]

/-- C1. Handshake round trip: a client whose open and connect succeed sends one
8-byte handshake message (the tag, the two bytes of the port, five zeros); a
running server with an empty registry whose accept step receives these 8 bytes
registers exactly that peer (`connectionCount() == 1`) and sends the two bytes
`{HANDSHAKE_ACK, 0}` in reply; the client that receives these two bytes accepts
them as `HANDSHAKE_ACK`, signals the caller, and `start()` returns true. -/
theorem C1_handshake_round_trip (t : Tags) (net : SendOracle) (srv : CommandServer)
    (cl : CommandClient) (incoming : Socket) (junk : Buffer) (serverPort : Nat)
    (serverAddr : String) (hreg : srv.mServerConnections = []) (hrun : srv.mRunning = true) :
    (∀ env : HandshakeEnv, env.openOk = true → env.connectOk = true →
      (CommandClient.start t net env serverPort serverAddr cl).sends.map SendCall.bytes =
        [t.HANDSHAKE :: (Convert.to_bytes16 serverPort ++ [0, 0, 0, 0, 0])]) ∧
    (CommandServer.acceptIteration t net srv
      (some { socket := incoming, bytesRecv := 8,
              message := junk.recvInto 0
                (t.HANDSHAKE :: (Convert.to_bytes16 serverPort ++ [0, 0, 0, 0, 0])) })
      ).1.connectionCount = 1 ∧
    (CommandServer.acceptIteration t net srv
      (some { socket := incoming, bytesRecv := 8,
              message := junk.recvInto 0
                (t.HANDSHAKE :: (Convert.to_bytes16 serverPort ++ [0, 0, 0, 0, 0])) })
      ).1.mServerConnections = [incoming] ∧
    (CommandServer.acceptIteration t net srv
      (some { socket := incoming, bytesRecv := 8,
              message := junk.recvInto 0
                (t.HANDSHAKE :: (Convert.to_bytes16 serverPort ++ [0, 0, 0, 0, 0])) })
      ).2.map SendCall.bytes = [[t.HANDSHAKE_ACK, 0]] ∧
    (CommandClient.start t net
      { openOk := true, connectOk := true, bytesRecv := 2, data := [t.HANDSHAKE_ACK, 0] }
      serverPort serverAddr cl).signalled = true ∧
    (CommandClient.start t net
      { openOk := true, connectOk := true, bytesRecv := 2, data := [t.HANDSHAKE_ACK, 0] }
      serverPort serverAddr cl).returned = some true := by
  refine ⟨?_, ?_, ?_, ?_, ?_, ?_⟩
  · intro env ho hc
    unfold CommandClient.start
    simp only [ho, hc, Bool.not_true, Bool.false_eq_true, if_false]
    split_ifs <;>
      simp [doSend, CommandClient.handshakeMessage, Buffer.view, Buffer.ofList,
        Convert.to_bytes16]
  · simp [CommandServer.acceptIteration, hrun, hreg, Buffer.recvInto,
      CommandServer.connectionCount, Convert.to_bytes16]
  · simp [CommandServer.acceptIteration, hrun, hreg, Buffer.recvInto, Convert.to_bytes16]
  · simp [CommandServer.acceptIteration, hrun, hreg, Buffer.recvInto, Convert.to_bytes16,
      doSend, Buffer.view, Buffer.set]
  · simp [CommandClient.start, Buffer.recvInto]
  · simp [CommandClient.start, Buffer.recvInto]

/-- A use of C1 on the started server without peers and a fresh client. -/
theorem C1_handshake_round_trip_witness :
    demoServer.mServerConnections = [] ∧ demoServer.mRunning = true ∧
    (CommandServer.acceptIteration specTags demoNet demoServer
      (some { socket := demoPeerA, bytesRecv := 8,
              message := Buffer.recvInto (fun _ => 0) 0
                (specTags.HANDSHAKE :: (Convert.to_bytes16 9000 ++ [0, 0, 0, 0, 0])) })
      ).1.connectionCount = 1 ∧
    (CommandClient.start specTags demoNet
      { openOk := true, connectOk := true, bytesRecv := 2,
        data := [specTags.HANDSHAKE_ACK, 0] }
      9000 "10.0.0.1" demoClient).returned = some true :=
  ⟨by decide, by decide,
   (C1_handshake_round_trip specTags demoNet demoServer demoClient demoPeerA (fun _ => 0)
      9000 "10.0.0.1" (by decide) (by decide)).2.1,
   (C1_handshake_round_trip specTags demoNet demoServer demoClient demoPeerA (fun _ => 0)
      9000 "10.0.0.1" (by decide) (by decide)).2.2.2.2.2⟩

/-- C2 (as stated, refuted). Two three-byte application messages delivered in
one receive of six bytes, with a hook that consumes one message per call: the
server loop and the client loop each invoke the hook once, not twice, and the
one Message holds all six bytes. -/
theorem C2_counterexample :
    threeByteHook (Message.mk0 (Buffer.ofList ([5, 65, 66] ++ [6, 67, 68])) 6) = (true, 3) ∧
    threeByteHook (Message.mk0 (Buffer.ofList [6, 67, 68]) 3) = (true, 3) ∧
    (serverReaderRun specTags threeByteHook (ReaderState.init (fun _ => 0))
        [Recv.ok ([5, 65, 66] ++ [6, 67, 68])]).dispatches.map (fun d => d.message.buffer)
      = [[5, 65, 66, 6, 67, 68]] ∧
    (clientReaderRun specTags demoNet demoPeerA threeByteHook (ReaderState.init (fun _ => 0))
        [Recv.ok ([5, 65, 66] ++ [6, 67, 68])]).dispatches.map (fun d => d.message.buffer)
      = [[5, 65, 66, 6, 67, 68]] ∧
    ¬ ((serverReaderRun specTags threeByteHook (ReaderState.init (fun _ => 0))
        [Recv.ok ([5, 65, 66] ++ [6, 67, 68])]).dispatches.length = 2) ∧
    ¬ ((clientReaderRun specTags demoNet demoPeerA threeByteHook
        (ReaderState.init (fun _ => 0))
        [Recv.ok ([5, 65, 66] ++ [6, 67, 68])]).dispatches.length = 2) := by
  decide

/-- C2 (amended). In the server reader loop and in the client read loop alike,
for two application messages of lengths L1, L2 >= 1 with L1 + L2 <= 1024 and a
hook that consumes exactly the first message and reports success, a single
receive of the L1 + L2 concatenated bytes at offset 0 causes exactly one
invocation of `processIncomingMessage`, on a Message over all L1 + L2 bytes;
afterwards the offset for the next receive is L2, and when L2 <= L1, so that
the regions of the compacting `memcpy` do not overlap, the L2 bytes of the
second message are at the front of the receive buffer. This holds whatever the
C library leaves behind a `memcpy` on overlapping regions. -/
theorem C2_single_receive_one_dispatch (t : Tags) (net : SendOracle) (mSocket : Socket)
    (hook : Hook) (s : ReaderState) (m1 m2 : List Nat) (ov : Buffer)
    (hoff : s.bufferSize = 0) (h1 : 1 ≤ m1.length) (h2 : 1 ≤ m2.length)
    (hsum : m1.length + m2.length ≤ 1024) (happ : t.isApplication (m1.headD 0))
    (hhook : hook { buffer := m1 ++ m2, length := m1.length + m2.length, cursor := 0 }
      = (true, m1.length)) :
    ((serverReaderStep t hook s (Recv.okWith (m1 ++ m2) ov)).dispatches =
        [{ message := { buffer := m1 ++ m2, length := m1.length + m2.length, cursor := 0 },
           ok := true, cursor := m1.length }] ∧
      (serverReaderStep t hook s (Recv.okWith (m1 ++ m2) ov)).state.bufferSize = m2.length ∧
      (m2.length ≤ m1.length →
        (serverReaderStep t hook s
          (Recv.okWith (m1 ++ m2) ov)).state.commandMessage.view m2.length = m2)) ∧
    ((clientReaderStep t net mSocket hook s (Recv.okWith (m1 ++ m2) ov)).dispatches =
        [{ message := { buffer := m1 ++ m2, length := m1.length + m2.length, cursor := 0 },
           ok := true, cursor := m1.length }] ∧
      (clientReaderStep t net mSocket hook s (Recv.okWith (m1 ++ m2) ov)).state.bufferSize
        = m2.length ∧
      (m2.length ≤ m1.length →
        (clientReaderStep t net mSocket hook s
          (Recv.okWith (m1 ++ m2) ov)).state.commandMessage.view m2.length = m2)) := by
  have hlen : (m1 ++ m2).length = m1.length + m2.length := List.length_append _ _
  have hbytes : (Recv.okWith (m1 ++ m2) ov).bytes = m1.length + m2.length := hlen
  have hdata : (Recv.okWith (m1 ++ m2) ov).data = m1 ++ m2 := rfl
  have hov : (Recv.okWith (m1 ++ m2) ov).overlapped = ov := rfl
  have hb : 0 < (Recv.okWith (m1 ++ m2) ov).bytes ∧
      (Recv.okWith (m1 ++ m2) ov).bytes < 1025 := by
    rw [hbytes]; omega
  have hhead : (m1 ++ m2).headD 0 = m1.headD 0 := by
    cases m1 with
    | nil => simp at h1
    | cons a rest => rfl
  have hlead : t.isApplication
      ((s.commandMessage.recvInto s.bufferSize (Recv.okWith (m1 ++ m2) ov).data) 0) := by
    rw [hoff, hdata, Buffer.recvInto_zero_head _ _ (by omega), hhead]
    exact happ
  have hview : (s.commandMessage.recvInto 0 (m1 ++ m2)).view (m1.length + m2.length)
      = m1 ++ m2 := by
    rw [← hlen]; exact Buffer.view_recvInto_zero _ _
  have hmsg : Message.mk0 (s.commandMessage.recvInto 0 (m1 ++ m2)) (m1.length + m2.length)
      = { buffer := m1 ++ m2, length := m1.length + m2.length, cursor := 0 } := by
    simp only [Message.mk0, hview]
  have hcompact : m2.length ≤ m1.length →
      ((s.commandMessage.recvInto 0 (m1 ++ m2)).memcpy m1.length
        (m1.length + m2.length - m1.length) ov).view m2.length = m2 := by
    intro hle
    have e : m1.length + m2.length - m1.length = m2.length := by omega
    rw [e, Buffer.view_memcpy _ _ _ _ hle, hview, List.drop_left]
  have hst := fun bs => dispatchAndCompact_success hook
    (s.commandMessage.recvInto 0 (m1 ++ m2)) bs (m1.length + m2.length) m1.length s.mRunning
    ov (by rw [hmsg]; exact hhook) (by omega)
  have hd := fun bs => dispatchAndCompact_dispatches hook
    (s.commandMessage.recvInto 0 (m1 ++ m2)) bs (m1.length + m2.length) s.mRunning ov
  constructor
  · rw [serverReaderStep_dispatch t hook s _ hb hlead, hbytes, hdata, hov, hoff, hd, hst]
    refine ⟨?_, ?_, hcompact⟩
    · rw [hmsg, hhook]
    · show m1.length + m2.length - m1.length = m2.length
      omega
  · rw [clientReaderStep_dispatch t net mSocket hook s _ hb hlead, hbytes, hdata, hov, hoff,
      hd, hst]
    refine ⟨?_, ?_, hcompact⟩
    · rw [hmsg, hhook]
    · show m1.length + m2.length - m1.length = m2.length
      omega

/-- A use of the amended C2: two three-byte messages in one receive, and a
three-byte message followed by four more bytes, where the regions of the
`memcpy` overlap and only the offset is stated. -/
theorem C2_single_receive_one_dispatch_witness :
    ((serverReaderStep specTags threeByteHook (ReaderState.init (fun _ => 0))
        (Recv.ok ([5, 65, 66] ++ [6, 67, 68]))).dispatches =
        [{ message := { buffer := [5, 65, 66] ++ [6, 67, 68], length := 3 + 3, cursor := 0 },
           ok := true, cursor := 3 }] ∧
      (serverReaderStep specTags threeByteHook (ReaderState.init (fun _ => 0))
        (Recv.ok ([5, 65, 66] ++ [6, 67, 68]))).state.bufferSize = 3 ∧
      (serverReaderStep specTags threeByteHook (ReaderState.init (fun _ => 0))
        (Recv.ok ([5, 65, 66] ++ [6, 67, 68]))).state.commandMessage.view 3 = [6, 67, 68]) ∧
    ((clientReaderStep specTags demoNet demoPeerA threeByteHook (ReaderState.init (fun _ => 0))
        (Recv.ok ([5, 65, 66] ++ [6, 67, 68]))).dispatches =
        [{ message := { buffer := [5, 65, 66] ++ [6, 67, 68], length := 3 + 3, cursor := 0 },
           ok := true, cursor := 3 }] ∧
      (clientReaderStep specTags demoNet demoPeerA threeByteHook (ReaderState.init (fun _ => 0))
        (Recv.ok ([5, 65, 66] ++ [6, 67, 68]))).state.bufferSize = 3 ∧
      (clientReaderStep specTags demoNet demoPeerA threeByteHook (ReaderState.init (fun _ => 0))
        (Recv.ok ([5, 65, 66] ++ [6, 67, 68]))).state.commandMessage.view 3 = [6, 67, 68]) ∧
    (serverReaderStep specTags threeByteHook (ReaderState.init (fun _ => 0))
      (Recv.okWith ([5, 65, 66] ++ [6, 67, 68, 7])
        (Buffer.ofList [7, 67, 68, 7]))).state.bufferSize = 4 :=
  ⟨⟨(C2_single_receive_one_dispatch specTags demoNet demoPeerA threeByteHook
        (ReaderState.init (fun _ => 0)) [5, 65, 66] [6, 67, 68] (fun _ => 0) rfl (by decide)
        (by decide) (by decide) (by decide) (by decide)).1.1,
      (C2_single_receive_one_dispatch specTags demoNet demoPeerA threeByteHook
        (ReaderState.init (fun _ => 0)) [5, 65, 66] [6, 67, 68] (fun _ => 0) rfl (by decide)
        (by decide) (by decide) (by decide) (by decide)).1.2.1,
      (C2_single_receive_one_dispatch specTags demoNet demoPeerA threeByteHook
        (ReaderState.init (fun _ => 0)) [5, 65, 66] [6, 67, 68] (fun _ => 0) rfl (by decide)
        (by decide) (by decide) (by decide) (by decide)).1.2.2 (by decide)⟩,
    ⟨(C2_single_receive_one_dispatch specTags demoNet demoPeerA threeByteHook
        (ReaderState.init (fun _ => 0)) [5, 65, 66] [6, 67, 68] (fun _ => 0) rfl (by decide)
        (by decide) (by decide) (by decide) (by decide)).2.1,
      (C2_single_receive_one_dispatch specTags demoNet demoPeerA threeByteHook
        (ReaderState.init (fun _ => 0)) [5, 65, 66] [6, 67, 68] (fun _ => 0) rfl (by decide)
        (by decide) (by decide) (by decide) (by decide)).2.2.1,
      (C2_single_receive_one_dispatch specTags demoNet demoPeerA threeByteHook
        (ReaderState.init (fun _ => 0)) [5, 65, 66] [6, 67, 68] (fun _ => 0) rfl (by decide)
        (by decide) (by decide) (by decide) (by decide)).2.2.2 (by decide)⟩,
    (C2_single_receive_one_dispatch specTags demoNet demoPeerA threeByteHook
      (ReaderState.init (fun _ => 0)) [5, 65, 66] [6, 67, 68, 7] (Buffer.ofList [7, 67, 68, 7])
      rfl (by decide) (by decide) (by decide) (by decide) (by decide)).1.2.1⟩

theorem lor_shift8 (a b : Nat) (hb : b < 2 ^ 8) : (a <<< 8) ||| b = a * 2 ^ 8 + b := by
  have := Nat.mul_add_lt_is_or (i := 8) (b := b) hb a
  rw [Nat.shiftLeft_eq, Nat.mul_comm a, ← this]

/-- C11. 16-bit codec round trip: for every 16-bit unsigned `x`, decoding with
`Convert::from_bytes(bytes, uint16_t&)` a buffer whose first two bytes are those
produced by `Convert::to_bytes(uint16_t x)` yields `x`. -/
theorem C11_codec16_round_trip (x : Nat) (rest : Buffer) (hx : x < 2 ^ 16) :
    Convert.from_bytes16 (rest.recvInto 0 (Convert.to_bytes16 x)) = x := by
  have h1 : x % 2 ^ 16 = x := Nat.mod_eq_of_lt hx
  simp only [Convert.from_bytes16, Convert.to_bytes16, Buffer.recvInto, h1]
  simp only [List.length_cons, List.length_nil, Nat.le_refl, Nat.zero_le, Nat.zero_add,
    Nat.sub_zero, true_and, Nat.reduceAdd, Nat.reduceLT, if_true, List.getD_cons_zero,
    List.getD_cons_succ, Nat.mul_zero, Nat.mul_one, Nat.shiftRight_zero, Nat.shiftLeft_zero,
    Nat.mod_mod, Nat.lt_add_one]
  rw [lor_shift8 _ _ (Nat.mod_lt _ (by norm_num)), Nat.shiftRight_eq_div_pow]
  omega

/-- A use of C11 at `x = 9000`, the port of the examples. -/
theorem C11_codec16_round_trip_witness :
    9000 < 2 ^ 16 ∧
    Convert.from_bytes16 (Buffer.recvInto (fun _ => 7) 0 (Convert.to_bytes16 9000)) = 9000 :=
  ⟨by decide, C11_codec16_round_trip 9000 (fun _ => 7) (by decide)⟩

/-- C12 (code evaluated at the failing input). The value `x = 65536` is encoded
as the four bytes `[0, 0, 1, 0]`, and decoding them gives 0: whatever follows
the four bytes, `x = 65536` and `x = 0` decode to the same value, because
`Convert::from_bytes(bytes, uint32_t&)` never reads `bytes[2]`; it reads
`bytes[4]`, the byte behind the four, in its place. -/
theorem C12_decoder_reads_index_four :
    Convert.to_bytes32 65536 = [0, 0, 1, 0] ∧
    Convert.from_bytes32 (Buffer.ofList (Convert.to_bytes32 65536)) = 0 ∧
    (∀ rest : Buffer,
      Convert.from_bytes32 (rest.recvInto 0 (Convert.to_bytes32 65536)) =
        Convert.from_bytes32 (rest.recvInto 0 (Convert.to_bytes32 0))) ∧
    (∀ (bytes : Buffer) (v : Nat),
      Convert.from_bytes32 (bytes.set 2 v) = Convert.from_bytes32 bytes) ∧
    Convert.from_bytes32 (Buffer.ofList [0, 0, 0, 0, 1]) = 65536 := by
  refine ⟨by decide, by decide, ?_, ?_, by decide⟩
  · intro rest
    simp [Convert.from_bytes32, Convert.to_bytes32, Buffer.recvInto]
  · intro bytes v
    simp [Convert.from_bytes32, Buffer.set]

/-- C13. The encoders are little-endian and fixed width: for every 16-bit `x`,
`to_bytes(x)` has exactly 2 bytes, byte `i` being `(x >> 8i) mod 256`, and for
every 32-bit `y`, `to_bytes(y)` has exactly 4 bytes, byte `i` being
`(y >> 8i) mod 256`; so the least significant byte comes first and the bytes,
weighted by `256^i`, add up to the value. -/
theorem C13_encoders_little_endian (x y : Nat) (hx : x < 2 ^ 16) (hy : y < 2 ^ 32) :
    ((Convert.to_bytes16 x).length = 2 ∧
      (∀ i, i < 2 → (Convert.to_bytes16 x).getD i 0 = (x >>> (8 * i)) % 256) ∧
      (Convert.to_bytes16 x).getD 0 0 + 256 * (Convert.to_bytes16 x).getD 1 0 = x) ∧
    ((Convert.to_bytes32 y).length = 4 ∧
      (∀ i, i < 4 → (Convert.to_bytes32 y).getD i 0 = (y >>> (8 * i)) % 256) ∧
      (Convert.to_bytes32 y).getD 0 0 + 256 * (Convert.to_bytes32 y).getD 1 0
        + 256 ^ 2 * (Convert.to_bytes32 y).getD 2 0
        + 256 ^ 3 * (Convert.to_bytes32 y).getD 3 0 = y) := by
  have h1 : x % 2 ^ 16 = x := Nat.mod_eq_of_lt hx
  have h2 : x % 65536 = x := h1
  have h3 : y % 2 ^ 32 = y := Nat.mod_eq_of_lt hy
  have h4 : y % 4294967296 = y := h3
  refine ⟨⟨rfl, ?_, ?_⟩, ⟨rfl, ?_, ?_⟩⟩
  · intro i hi
    interval_cases i <;> simp [Convert.to_bytes16, h2]
  · simp only [Convert.to_bytes16, h1, List.getD_cons_zero, List.getD_cons_succ,
      Nat.shiftRight_eq_div_pow]
    omega
  · intro i hi
    interval_cases i <;> simp [Convert.to_bytes32, h4]
  · simp only [Convert.to_bytes32, h3, List.getD_cons_zero, List.getD_cons_succ,
      Nat.shiftRight_eq_div_pow]
    omega

/-- A use of C13 at `x = 0x1234` and `y = 0x12345678`. -/
theorem C13_encoders_little_endian_witness :
    Convert.to_bytes16 4660 = [52, 18] ∧ Convert.to_bytes32 305419896 = [120, 86, 52, 18] ∧
    (Convert.to_bytes16 4660).getD 0 0 + 256 * (Convert.to_bytes16 4660).getD 1 0 = 4660 ∧
    (Convert.to_bytes32 305419896).getD 0 0 + 256 * (Convert.to_bytes32 305419896).getD 1 0
        + 256 ^ 2 * (Convert.to_bytes32 305419896).getD 2 0
        + 256 ^ 3 * (Convert.to_bytes32 305419896).getD 3 0 = 305419896 :=
  ⟨by decide, by decide,
   (C13_encoders_little_endian 4660 305419896 (by decide) (by decide)).1.2.2,
   (C13_encoders_little_endian 4660 305419896 (by decide) (by decide)).2.2.2⟩

/-! ## Accept step, waiting, client send and start: theorems -/

/-- C14. Accept step registration: on a running server, for every accepted
socket and every first message of 1 to 1024 received bytes, the registry grows
by exactly one entry, that socket appended last, if the leading byte is
`HANDSHAKE` (whatever the other bytes and the length), and is left unchanged if
the leading byte is anything else; a first receive of 0 or fewer bytes also
leaves the registry unchanged. -/
theorem C14_accept_registration (t : Tags) (net : SendOracle) (s : CommandServer)
    (a : Accepted) (hrun : s.mRunning = true) :
    (0 < a.bytesRecv ∧ a.bytesRecv < 1025 → a.message 0 = t.HANDSHAKE →
      (CommandServer.acceptIteration t net s (some a)).1.mServerConnections
        = s.mServerConnections ++ [a.socket] ∧
      (CommandServer.acceptIteration t net s (some a)).1.connectionCount
        = s.connectionCount + 1) ∧
    (0 < a.bytesRecv ∧ a.bytesRecv < 1025 → a.message 0 ≠ t.HANDSHAKE →
      (CommandServer.acceptIteration t net s (some a)).1.mServerConnections
        = s.mServerConnections) ∧
    (a.bytesRecv ≤ 0 →
      (CommandServer.acceptIteration t net s (some a)).1.mServerConnections
        = s.mServerConnections) := by
  refine ⟨?_, ?_, ?_⟩
  · intro hb hh
    simp [CommandServer.acceptIteration, hrun, hb, hh, CommandServer.connectionCount]
  · intro hb hh
    simp [CommandServer.acceptIteration, hrun, hb, hh]
  · intro hb
    have : ¬ (0 < a.bytesRecv ∧ a.bytesRecv < 1025) := by omega
    simp [CommandServer.acceptIteration, hrun, this]

/-- A use of C14: the started server accepts the first peer. -/
theorem C14_accept_registration_witness :
    demoServer.mRunning = true ∧
    (CommandServer.acceptIteration specTags demoNet demoServer
        (some { socket := demoPeerA, bytesRecv := 8, message := demoHandshake })
      ).1.mServerConnections = demoServer.mServerConnections ++ [demoPeerA] ∧
    (CommandServer.acceptIteration specTags demoNet demoServer
        (some { socket := demoPeerA, bytesRecv := 8, message := demoHandshake })
      ).1.connectionCount = demoServer.connectionCount + 1 :=
  ⟨by decide,
   (C14_accept_registration specTags demoNet demoServer
      { socket := demoPeerA, bytesRecv := 8, message := demoHandshake } (by decide)).1
      ⟨by decide, by decide⟩ (by decide)⟩

/-- C15 (code evaluated at the failing input). Whatever the server's version and
revision and whatever was accepted, an accept step makes at most one send, and
the bytes it sends are exactly the two bytes `{HANDSHAKE_ACK, 0}`: the version
and the revision, copied into the array behind them, are not part of what is
sent. A server of version 258 and revision 772 replies `[1, 0]` to a
handshake. -/
theorem C15_reply_is_two_bytes (t : Tags) (net : SendOracle) (s : CommandServer)
    (acc : Option Accepted) :
    (CommandServer.acceptIteration t net s acc).2.length ≤ 1 ∧
    (∀ call ∈ (CommandServer.acceptIteration t net s acc).2,
      call.bytes = [t.HANDSHAKE_ACK, 0] ∧ call.length = 2) ∧
    (CommandServer.acceptIteration specTags demoNet
      { demoServer with mVersion := 258, mRevision := 772 }
      (some { socket := demoPeerA, bytesRecv := 8, message := demoHandshake })
      ).2.map SendCall.bytes = [[1, 0]] := by
  refine ⟨?_, ?_, by decide⟩
  · unfold CommandServer.acceptIteration
    split_ifs
    · simp
    · cases acc with
      | none => simp
      | some a => simp only; split_ifs <;> simp
  · unfold CommandServer.acceptIteration
    intro call hcall
    cases acc with
    | none => simp at hcall
    | some a =>
      simp only at hcall
      split_ifs at hcall <;> simp [doSend, Buffer.view, Buffer.set] at hcall <;>
        simp [hcall]



theorem waitLoop_none_reaches (n : Nat) (polls : List CommandServer) (s : CommandServer)
    (h : ∀ p ∈ polls, p.mServerConnections.length < n) :
    waitLoop n polls s.mServerConnections.length
      = ((s :: polls).getLast (List.cons_ne_nil _ _)).mServerConnections.length % 2 ^ 16 := by
  induction polls generalizing s with
  | nil => simp [waitLoop]
  | cons p rest ih =>
    have hp : p.mServerConnections.length < n := h p (List.mem_cons_self _ _)
    have := ih p (fun q hq => h q (List.mem_cons_of_mem _ hq))
    simp only [waitLoop, Nat.sub_zero, hp, if_true, this]
    rw [List.getLast_cons (List.cons_ne_nil _ _)]

theorem waitLoop_first_reaches (n total : Nat) (pre post : List CommandServer)
    (p : CommandServer) (hpre : ∀ q ∈ pre, q.mServerConnections.length < n)
    (hp : n ≤ p.mServerConnections.length) :
    waitLoop n (pre ++ p :: post) total = p.mServerConnections.length % 2 ^ 16 := by
  induction pre generalizing total with
  | nil =>
    have : ¬ p.mServerConnections.length < n := by omega
    simp [waitLoop, this]
  | cons q rest ih =>
    have hq : q.mServerConnections.length < n := hpre q (List.mem_cons_self _ _)
    simp only [List.cons_append, waitLoop, Nat.sub_zero, hq, if_true]
    exact ih _ (fun r hr => hpre r (List.mem_cons_of_mem _ hr))

/-- C16 (as stated, refuted). The started server with one registered peer and
no registration during the call: `waitForConnections` returns 1, the size of
the registry, not 0, the number of peers registered since the call began. -/
theorem C16_counterexample :
    demoServerOnePeer.mState = .SERVER ∧ demoServerOnePeer.connectionCount = 1 ∧
    demoServerOnePeer.waitForConnections 1 [demoServerOnePeer] = 1 ∧
    demoServerOnePeer.waitForConnections 2 [demoServerOnePeer, demoServerOnePeer] = 1 ∧
    ¬ (demoServerOnePeer.waitForConnections 2 [demoServerOnePeer, demoServerOnePeer]
        = demoServerOnePeer.connectionCount - 1) := by
  decide

/-- C16 (amended). On a server whose role is `SERVER`, `waitForConnections`
returns (as a `uint16_t`) the size of the registry as last read, which counts
the peers registered before the call as well: the size read at the first poll
that finds at least `connectionCount` entries, or, when no poll before the
deadline does, the size read at the last poll (at the start of the call when
there was no poll); so with `k` peers registered before the call and none
registering during it, it returns `k`. -/
theorem C16_wait_returns_registry_size (s : CommandServer) (connectionCount : Nat)
    (polls : List CommandServer) (hrole : s.mState = .SERVER) :
    ((∀ p ∈ polls, p.mServerConnections.length < connectionCount) →
      s.waitForConnections connectionCount polls
        = ((s :: polls).getLast (List.cons_ne_nil _ _)).connectionCount % 2 ^ 16) ∧
    (∀ (pre post : List CommandServer) (p : CommandServer), polls = pre ++ p :: post →
      (∀ q ∈ pre, q.mServerConnections.length < connectionCount) →
      connectionCount ≤ p.mServerConnections.length →
      s.waitForConnections connectionCount polls = p.connectionCount % 2 ^ 16) ∧
    ((∀ p ∈ polls, p.mServerConnections = s.mServerConnections) →
      s.waitForConnections connectionCount polls = s.connectionCount % 2 ^ 16) := by
  refine ⟨?_, ?_, ?_⟩
  · intro h
    simp only [CommandServer.waitForConnections, hrole, if_true]
    exact waitLoop_none_reaches connectionCount polls s h
  · intro pre post p hpolls hpre hp
    simp only [CommandServer.waitForConnections, hrole, if_true, hpolls]
    exact waitLoop_first_reaches connectionCount _ pre post p hpre hp
  · intro hsame
    simp only [CommandServer.waitForConnections, hrole, if_true, CommandServer.connectionCount]
    clear hrole
    generalize hk : s.mServerConnections.length = k
    have hlen : ∀ p ∈ polls, p.mServerConnections.length = k := by
      intro p hp; rw [hsame p hp, hk]
    clear hsame
    induction polls with
    | nil => simp [waitLoop]
    | cons p rest ih =>
      have hp := hlen p (List.mem_cons_self _ _)
      simp only [waitLoop, hp, Nat.sub_zero]
      split_ifs
      · exact ih (fun q hq => hlen q (List.mem_cons_of_mem _ hq))
      · rfl

/-- A use of the amended C16: one peer registered before the call, two more by
the second poll. -/
theorem C16_wait_returns_registry_size_witness :
    demoServerOnePeer.mState = .SERVER ∧
    demoServerOnePeer.waitForConnections 2 [demoServerOnePeer, demoServerThreePeers]
      = demoServerThreePeers.connectionCount % 2 ^ 16 ∧
    demoServerThreePeers.connectionCount = 3 :=
  ⟨by decide,
   (C16_wait_returns_registry_size demoServerOnePeer 2
      [demoServerOnePeer, demoServerThreePeers] (by decide)).2.1
      [demoServerOnePeer] [] demoServerThreePeers rfl (by decide) (by decide),
   by decide⟩

/-- C17. For every message of length > 0 with `dst` absent,
`CommandClient::sendMessage` performs exactly one send of the message on the
client's own socket if the exclude value is absent or differs from the socket
in address or port, returning true iff that send reported exactly `length`
bytes; if the exclude value matches both the address and the port of the
socket, it performs no send and returns true. -/
theorem C17_client_send_own_socket (net : SendOracle) (c : CommandClient) (message : Buffer)
    (length : Nat) (hlen : 0 < length) :
    (CommandClient.sendMessage net c message length none none =
      (net c.mSocket length == length,
       [{ dst := c.mSocket, bytes := message.view length, length := length,
          result := net c.mSocket length }])) ∧
    (∀ v : ValueSource, (c.mSocket.address ≠ v.ipAddr ∨ c.mSocket.port ≠ v.port) →
      CommandClient.sendMessage net c message length none (some v) =
        (net c.mSocket length == length,
         [{ dst := c.mSocket, bytes := message.view length, length := length,
            result := net c.mSocket length }])) ∧
    (∀ v : ValueSource, c.mSocket.address = v.ipAddr → c.mSocket.port = v.port →
      CommandClient.sendMessage net c message length none (some v) = (true, [])) ∧
    ((net c.mSocket length == length) = true ↔ net c.mSocket length = length) := by
  have h0 : length ≠ 0 := Nat.pos_iff_ne_zero.mp hlen
  refine ⟨?_, ?_, ?_, ?_⟩
  · simp [CommandClient.sendMessage, h0, notExcluded, doSend]
  · intro v hv
    have : notExcluded c.mSocket (some v) = true := by
      rw [notExcluded_some_iff]; tauto
    simp [CommandClient.sendMessage, h0, this, doSend]
  · intro v ha hp
    have : ¬ (notExcluded c.mSocket (some v) = true) := by
      rw [notExcluded_some_iff]; exact fun h => h ⟨ha, hp⟩
    simp [CommandClient.sendMessage, h0, this]
  · simp

/-- A use of C17: the started client, its own address and port excluded. -/
theorem C17_client_send_own_socket_witness :
    CommandClient.sendMessage demoNet demoClientStarted (Buffer.ofList [5, 65, 66]) 3 none
        (some ⟨"10.0.0.1", 9000⟩) = (true, []) ∧
    CommandClient.sendMessage demoNet demoClientStarted (Buffer.ofList [5, 65, 66]) 3 none
        none =
      (demoNet demoClientStarted.mSocket 3 == 3,
       [{ dst := demoClientStarted.mSocket, bytes := (Buffer.ofList [5, 65, 66]).view 3,
          length := 3, result := demoNet demoClientStarted.mSocket 3 }]) :=
  ⟨(C17_client_send_own_socket demoNet demoClientStarted (Buffer.ofList [5, 65, 66]) 3
      (by decide)).2.2.1 ⟨"10.0.0.1", 9000⟩ (by decide) (by decide),
   (C17_client_send_own_socket demoNet demoClientStarted (Buffer.ofList [5, 65, 66]) 3
      (by decide)).1⟩

/-- C18 (code evaluated at the failing inputs). After a successful open, when
`connect` fails, and when the reply is not a 2-byte `HANDSHAKE_ACK` (a `recv`
result other than 2, or a 2-byte `PONG`), the worker returns without reaching
`cv.notify_one()`: the caller is not signalled and `start()` does not return.
The return value false occurs exactly when the open fails. -/
theorem C18_start_blocks_on_failed_handshake (t : Tags) (net : SendOracle)
    (env : HandshakeEnv) (serverPort : Nat) (serverAddr : String) (c : CommandClient) :
    ((CommandClient.start t net { env with openOk := true, connectOk := false }
        serverPort serverAddr c).signalled = false ∧
      (CommandClient.start t net { env with openOk := true, connectOk := false }
        serverPort serverAddr c).returned = none) ∧
    (env.bytesRecv ≠ 2 →
      (CommandClient.start t net { env with openOk := true, connectOk := true }
        serverPort serverAddr c).signalled = false ∧
      (CommandClient.start t net { env with openOk := true, connectOk := true }
        serverPort serverAddr c).returned = none) ∧
    ((CommandClient.start specTags demoNet
        { openOk := true, connectOk := true, bytesRecv := 2, data := [3, 0] }
        9000 "10.0.0.1" demoClient).returned = none) ∧
    ((CommandClient.start t net env serverPort serverAddr c).returned = some false ↔
      env.openOk = false) := by
  refine ⟨⟨by simp [CommandClient.start], by simp [CommandClient.start]⟩, ?_, by decide, ?_⟩
  · intro h
    simp [CommandClient.start, h]
  · unfold CommandClient.start
    cases env.openOk <;> simp
    split_ifs <;> simp


/-! ## Read loops, disconnects and reserved tags: theorems -/

theorem Buffer.recvInto_nil (buf : Buffer) (off : Nat) : buf.recvInto off [] = buf := by
  funext i
  simp [Buffer.recvInto]

/-- C19 (as stated, refuted). In the server reader loop a receive of 0 bytes,
or of the error sentinel, does not end the loop: `mRunning` stays true and the
loop receives again, here a three-byte message that it hands to the hook. -/
theorem C19_counterexample :
    (serverReaderRun specTags threeByteHook (ReaderState.init (fun _ => 0))
        [{ bytes := 0, data := [] }, Recv.ok [5, 65, 66]]).dispatches.map
        (fun d => d.message.buffer) = [[5, 65, 66]] ∧
    (serverReaderRun specTags threeByteHook (ReaderState.init (fun _ => 0))
        [{ bytes := SIZE_MAX, data := [] }, Recv.ok [5, 65, 66]]).dispatches.map
        (fun d => d.message.buffer) = [[5, 65, 66]] ∧
    (serverReaderStep specTags threeByteHook (ReaderState.init (fun _ => 0))
        { bytes := 0, data := [] }).state.mRunning = true := by
  decide

/-- C19 (amended). In the server reader loop, a receive that returns 0 bytes or
the error sentinel (`SIZE_MAX`) is ignored: the hook is not invoked, nothing is
sent, the receive offset and the flag `mRunning` are left as they were (the
loop has no access to the registry), and the loop goes on to receive again: it
continues with the following receives exactly as if this one had not happened. -/
theorem C19_disconnect_receive_is_ignored (t : Tags) (hook : Hook) (s : ReaderState)
    (r : Recv) (rest : List Recv) (hrun : s.mRunning = true)
    (hb : r.bytes = 0 ∨ r.bytes = SIZE_MAX) :
    (serverReaderStep t hook s r).dispatches = [] ∧
    (serverReaderStep t hook s r).sends = [] ∧
    (serverReaderStep t hook s r).state.bufferSize = s.bufferSize ∧
    (serverReaderStep t hook s r).state.mRunning = true ∧
    (r.data = [] →
      (serverReaderStep t hook s r).state.commandMessage = s.commandMessage ∧
      (serverReaderRun t hook s (r :: rest)).dispatches
        = (serverReaderRun t hook s rest).dispatches ∧
      (serverReaderRun t hook s (r :: rest)).state.bufferSize
        = (serverReaderRun t hook s rest).state.bufferSize) := by
  have h1 : ¬ (r.bytes > 0 ∧ r.bytes < 1025) := by
    rcases hb with h | h <;> rw [h] <;> simp [SIZE_MAX]
  have h2 : ¬ (r.bytes ≠ SIZE_MAX ∧ r.bytes ≠ 0) := by
    rcases hb with h | h <;> simp [h]
  have hstep : serverReaderStep t hook s r =
      { state := { s with commandMessage := s.commandMessage.recvInto s.bufferSize r.data },
        dispatches := [], sends := [] } := by
    simp only [serverReaderStep]
    rw [if_neg h1, if_neg h2]
  refine ⟨by rw [hstep], by rw [hstep], by rw [hstep], by rw [hstep]; exact hrun, ?_⟩
  intro hdata
  have hstate : (serverReaderStep t hook s r).state = s := by
    rw [hstep, hdata, Buffer.recvInto_nil]
  refine ⟨by rw [hstate], ?_, ?_⟩
  · simp only [serverReaderRun, runLoop, hrun, if_true]
    rw [hstate, hstep]
    rfl
  · simp only [serverReaderRun, runLoop, hrun, if_true]
    rw [hstate]

/-- A use of the amended C19: a receive of 0 bytes at the start of the loop. -/
theorem C19_disconnect_receive_is_ignored_witness :
    (serverReaderStep specTags threeByteHook (ReaderState.init (fun _ => 0))
        { bytes := 0, data := [] }).dispatches = [] ∧
    (serverReaderStep specTags threeByteHook (ReaderState.init (fun _ => 0))
        { bytes := 0, data := [] }).state.mRunning = true :=
  ⟨(C19_disconnect_receive_is_ignored specTags threeByteHook (ReaderState.init (fun _ => 0))
      { bytes := 0, data := [] } [Recv.ok [5, 65, 66]] rfl (Or.inl rfl)).1,
   (C19_disconnect_receive_is_ignored specTags threeByteHook (ReaderState.init (fun _ => 0))
      { bytes := 0, data := [] } [Recv.ok [5, 65, 66]] rfl (Or.inl rfl)).2.2.2.1⟩

/-- C20 (as stated, refuted). The server reader loop hands a buffer whose leading
byte is `PING` or `HANDSHAKE_ACK` to the hook, and the client read loop one
whose leading byte is `HANDSHAKE` or `GOODBYE`. -/
theorem C20_counterexample :
    (serverReaderStep specTags threeByteHook (ReaderState.init (fun _ => 0))
        (Recv.ok [specTags.PING, 0, 0])).dispatches.map (fun d => d.message.buffer)
      = [[specTags.PING, 0, 0]] ∧
    (serverReaderStep specTags threeByteHook (ReaderState.init (fun _ => 0))
        (Recv.ok [specTags.HANDSHAKE_ACK, 0, 0])).dispatches.map (fun d => d.message.buffer)
      = [[specTags.HANDSHAKE_ACK, 0, 0]] ∧
    (clientReaderStep specTags demoNet demoPeerA threeByteHook (ReaderState.init (fun _ => 0))
        (Recv.ok [specTags.HANDSHAKE, 0, 0])).dispatches.map (fun d => d.message.buffer)
      = [[specTags.HANDSHAKE, 0, 0]] ∧
    (clientReaderStep specTags demoNet demoPeerA threeByteHook (ReaderState.init (fun _ => 0))
        (Recv.ok [specTags.GOODBYE, 0, 0])).dispatches.map (fun d => d.message.buffer)
      = [[specTags.GOODBYE, 0, 0]] := by
  decide

/-- C20 (amended). The server reader loop never invokes
`processIncomingMessage` on a buffer whose leading byte is `PONG`, `GOODBYE` or
`HANDSHAKE`, and the client read loop never on one whose leading byte is
`PING`; every receive of 1 to 1024 bytes with any other leading byte (the
other control tags included) is handed to the hook. -/
theorem C20_tags_kept_from_hook (t : Tags) (net : SendOracle) (mSocket : Socket)
    (hook : Hook) (s : ReaderState) (r : Recv) :
    (((s.commandMessage.recvInto s.bufferSize r.data) 0 = t.PONG ∨
      (s.commandMessage.recvInto s.bufferSize r.data) 0 = t.GOODBYE ∨
      (s.commandMessage.recvInto s.bufferSize r.data) 0 = t.HANDSHAKE) →
      (serverReaderStep t hook s r).dispatches = []) ∧
    ((s.commandMessage.recvInto s.bufferSize r.data) 0 = t.PING →
      (clientReaderStep t net mSocket hook s r).dispatches = []) ∧
    (0 < r.bytes ∧ r.bytes < 1025 →
      (s.commandMessage.recvInto s.bufferSize r.data) 0 ≠ t.PONG →
      (s.commandMessage.recvInto s.bufferSize r.data) 0 ≠ t.GOODBYE →
      (s.commandMessage.recvInto s.bufferSize r.data) 0 ≠ t.HANDSHAKE →
      (serverReaderStep t hook s r).dispatches.map (fun d => d.message) =
        [Message.mk0 (s.commandMessage.recvInto s.bufferSize r.data) r.bytes]) ∧
    (0 < r.bytes ∧ r.bytes < 1025 →
      (s.commandMessage.recvInto s.bufferSize r.data) 0 ≠ t.PING →
      (clientReaderStep t net mSocket hook s r).dispatches.map (fun d => d.message) =
        [Message.mk0 (s.commandMessage.recvInto s.bufferSize r.data) r.bytes]) := by
  refine ⟨?_, ?_, ?_, ?_⟩
  · intro h
    simp only [serverReaderStep]
    rcases h with h | h | h <;> split_ifs <;> rfl
  · intro h
    simp only [clientReaderStep]
    split_ifs <;> rfl
  · intro hb h1 h2 h3
    simp only [serverReaderStep]
    rw [if_pos (show r.bytes > 0 ∧ r.bytes < 1025 from hb), if_neg h1, if_neg h2, if_neg h3,
      dispatchAndCompact_dispatches]
    rfl
  · intro hb h1
    simp only [clientReaderStep]
    rw [if_pos (show r.bytes > 0 ∧ r.bytes < 1025 from hb), if_neg h1,
      dispatchAndCompact_dispatches]
    rfl



/-! ## Read loops, step by step: theorems -/

theorem dispatchAndCompact_sends (hook : Hook) (cm : Buffer) (bufferSize bytes : Nat)
    (run : Bool) (ov : Buffer) :
    (dispatchAndCompact hook cm bufferSize bytes run ov).sends = [] := by
  simp only [dispatchAndCompact]
  split_ifs <;> rfl

theorem dispatchAndCompact_offset (hook : Hook) (cm : Buffer) (bufferSize bytes c : Nat)
    (run : Bool) (ov : Buffer) (hh : hook (Message.mk0 cm bytes) = (true, c)) :
    (dispatchAndCompact hook cm bufferSize bytes run ov).state.bufferSize = bytes - c := by
  by_cases hc : c < bytes
  · rw [dispatchAndCompact_success hook cm bufferSize bytes c run ov hh hc]
  · have h0 : bytes - c = 0 := by omega
    rw [h0]
    simp only [dispatchAndCompact, hh]
    simp [Message.remainingBytes, Message.mk0, h0]

theorem dispatchAndCompact_front (hook : Hook) (cm : Buffer) (bufferSize bytes c : Nat)
    (run : Bool) (ov : Buffer) (hh : hook (Message.mk0 cm bytes) = (true, c))
    (hd : bytes - c ≤ c) :
    (dispatchAndCompact hook cm bufferSize bytes run ov).state.commandMessage.view
        (bytes - c) = (cm.view bytes).drop c := by
  by_cases hc : c < bytes
  · rw [dispatchAndCompact_success hook cm bufferSize bytes c run ov hh hc]
    show (cm.memcpy c (bytes - c) ov).view (bytes - c) = _
    rw [Buffer.view_memcpy _ _ _ _ hd]
    congr 2
    omega
  · have h0 : bytes - c = 0 := by omega
    have hdrop : (cm.view bytes).drop c = [] := by
      apply List.drop_eq_nil_of_le
      rw [Buffer.length_view]
      omega
    rw [hdrop, h0]
    rfl

theorem dispatchAndCompact_front_overlap (hook : Hook) (cm : Buffer)
    (bufferSize bytes c : Nat) (run : Bool) (ov : Buffer)
    (hh : hook (Message.mk0 cm bytes) = (true, c)) (hd : c < bytes - c) :
    (dispatchAndCompact hook cm bufferSize bytes run ov).state.commandMessage.view
        (bytes - c) = ov.view (bytes - c) := by
  rw [dispatchAndCompact_success hook cm bufferSize bytes c run ov hh (by omega)]
  exact Buffer.view_memcpy_overlap _ _ _ _ hd

theorem dispatchAndCompact_failed (hook : Hook) (cm : Buffer) (bufferSize bytes c : Nat)
    (run : Bool) (ov : Buffer) (hh : hook (Message.mk0 cm bytes) = (false, c)) :
    (dispatchAndCompact hook cm bufferSize bytes run ov).state =
      { commandMessage := cm, bufferSize := bufferSize, mRunning := run } := by
  simp only [dispatchAndCompact, hh]
  simp

/-- C22. In the server reader loop, for every receive of 1 to 1024 bytes: if the
leading byte of the receive buffer is none of `PONG`, `GOODBYE`, `HANDSHAKE`,
the hook `processIncomingMessage` is invoked exactly once (on the `Message` over
the buffer and the received count); if it is one of the three, the hook is not
invoked, the receive offset `bufferSize` is unchanged and nothing is sent. -/
theorem C22_server_dispatch_or_skip (t : Tags) (hook : Hook) (s : ReaderState) (r : Recv)
    (hb : 0 < r.bytes ∧ r.bytes < 1025) :
    ((s.commandMessage.recvInto s.bufferSize r.data) 0 ≠ t.PONG →
      (s.commandMessage.recvInto s.bufferSize r.data) 0 ≠ t.GOODBYE →
      (s.commandMessage.recvInto s.bufferSize r.data) 0 ≠ t.HANDSHAKE →
      (serverReaderStep t hook s r).dispatches.length = 1 ∧
      (serverReaderStep t hook s r).dispatches.map (fun d => d.message) =
        [Message.mk0 (s.commandMessage.recvInto s.bufferSize r.data) r.bytes]) ∧
    (((s.commandMessage.recvInto s.bufferSize r.data) 0 = t.PONG ∨
      (s.commandMessage.recvInto s.bufferSize r.data) 0 = t.GOODBYE ∨
      (s.commandMessage.recvInto s.bufferSize r.data) 0 = t.HANDSHAKE) →
      (serverReaderStep t hook s r).dispatches = [] ∧
      (serverReaderStep t hook s r).state.bufferSize = s.bufferSize ∧
      (serverReaderStep t hook s r).sends = []) := by
  refine ⟨?_, ?_⟩
  · intro h1 h2 h3
    simp only [serverReaderStep]
    rw [if_pos (show r.bytes > 0 ∧ r.bytes < 1025 from hb), if_neg h1, if_neg h2, if_neg h3,
      dispatchAndCompact_dispatches]
    exact ⟨rfl, rfl⟩
  · intro h
    simp only [serverReaderStep]
    rcases h with h | h | h <;> split_ifs <;> exact ⟨rfl, rfl, rfl⟩

/-- A use of C22: a receive of `{PONG, 0}` and a receive of an application
message of three bytes, from the start of the loop. -/
theorem C22_server_dispatch_or_skip_witness :
    ((serverReaderStep specTags threeByteHook (ReaderState.init (fun _ => 0))
        (Recv.ok [specTags.PONG, 0])).dispatches = [] ∧
      (serverReaderStep specTags threeByteHook (ReaderState.init (fun _ => 0))
        (Recv.ok [specTags.PONG, 0])).state.bufferSize = 0 ∧
      (serverReaderStep specTags threeByteHook (ReaderState.init (fun _ => 0))
        (Recv.ok [specTags.PONG, 0])).sends = []) ∧
    (serverReaderStep specTags threeByteHook (ReaderState.init (fun _ => 0))
        (Recv.ok [5, 65, 66])).dispatches.length = 1 :=
  ⟨(C22_server_dispatch_or_skip specTags threeByteHook (ReaderState.init (fun _ => 0))
      (Recv.ok [specTags.PONG, 0]) (by decide)).2 (Or.inl (by decide)),
   ((C22_server_dispatch_or_skip specTags threeByteHook (ReaderState.init (fun _ => 0))
      (Recv.ok [5, 65, 66]) (by decide)).1 (by decide) (by decide) (by decide)).1⟩

/-- C23. In the client read loop, for every receive of 1 to 1024 bytes: if the
leading byte of the receive buffer is `PING`, the client makes exactly one send
on its own socket, of the two bytes `{PONG, 0}`, whatever count that send
reports, and does not invoke the hook; for any other leading byte it sends
nothing itself and invokes the hook exactly once. -/
theorem C23_client_ping_or_dispatch (t : Tags) (net : SendOracle) (mSocket : Socket)
    (hook : Hook) (s : ReaderState) (r : Recv) (hb : 0 < r.bytes ∧ r.bytes < 1025) :
    ((s.commandMessage.recvInto s.bufferSize r.data) 0 = t.PING →
      (clientReaderStep t net mSocket hook s r).sends =
        [{ dst := mSocket, bytes := [t.PONG, 0], length := 2, result := net mSocket 2 }] ∧
      (clientReaderStep t net mSocket hook s r).dispatches = []) ∧
    ((s.commandMessage.recvInto s.bufferSize r.data) 0 ≠ t.PING →
      (clientReaderStep t net mSocket hook s r).sends = [] ∧
      (clientReaderStep t net mSocket hook s r).dispatches.length = 1 ∧
      (clientReaderStep t net mSocket hook s r).dispatches.map (fun d => d.message) =
        [Message.mk0 (s.commandMessage.recvInto s.bufferSize r.data) r.bytes]) := by
  refine ⟨?_, ?_⟩
  · intro h
    simp only [clientReaderStep]
    rw [if_pos (show r.bytes > 0 ∧ r.bytes < 1025 from hb), if_pos h]
    exact ⟨rfl, rfl⟩
  · intro h
    simp only [clientReaderStep]
    rw [if_pos (show r.bytes > 0 ∧ r.bytes < 1025 from hb), if_neg h,
      dispatchAndCompact_dispatches, dispatchAndCompact_sends]
    exact ⟨rfl, rfl, rfl⟩

/-- A use of C23: a receive of `{PING, 0}` on a network that reports one byte
sent, and a receive of an application message of three bytes. -/
theorem C23_client_ping_or_dispatch_witness :
    ((clientReaderStep specTags (fun _ _ => 1) demoPeerA threeByteHook
        (ReaderState.init (fun _ => 0)) (Recv.ok [specTags.PING, 0])).sends =
        [{ dst := demoPeerA, bytes := [specTags.PONG, 0], length := 2, result := 1 }] ∧
      (clientReaderStep specTags (fun _ _ => 1) demoPeerA threeByteHook
        (ReaderState.init (fun _ => 0)) (Recv.ok [specTags.PING, 0])).dispatches = []) ∧
    (clientReaderStep specTags demoNet demoPeerA threeByteHook
        (ReaderState.init (fun _ => 0)) (Recv.ok [5, 65, 66])).sends = [] :=
  ⟨(C23_client_ping_or_dispatch specTags (fun _ _ => 1) demoPeerA threeByteHook
      (ReaderState.init (fun _ => 0)) (Recv.ok [specTags.PING, 0]) (by decide)).1 (by decide),
   ((C23_client_ping_or_dispatch specTags demoNet demoPeerA threeByteHook
      (ReaderState.init (fun _ => 0)) (Recv.ok [5, 65, 66]) (by decide)).2 (by decide)).1⟩


/-- C24 (code evaluated at the failing input). The compaction of both read loops
is the call `memcpy(commandMessage, message.data(), message.remainingBytes())`.
When the hook has moved the cursor to `c` and `r = bytes - c` bytes remain with
`c < r`, source and destination of the call overlap, the call is undefined in C
and the front of the buffer is what the library leaves there: after a receive
of the seven bytes `{5, 65, 66, 6, 67, 68, 7}` of which the hook consumed
three, a library that copies from the last byte down leaves `{7, 67, 68, 7}`
at the front, not the four bytes `{6, 67, 68, 7}` that started at the cursor.
For every receive of 1 to 1024 bytes that is dispatched: after a success the
next offset is `r`, the first `r` bytes are those that started at the cursor
when `r <= c`, and are those the library leaves when `c < r`; after a failure
the buffer is as the receive filled it. -/
theorem C24_compaction_overlaps :
    ((Buffer.recvInto (fun _ => 0) 0 [5, 65, 66, 6, 67, 68, 7]).view 7).drop 3 =
      [6, 67, 68, 7] ∧
    (serverReaderStep specTags threeByteHook (ReaderState.init (fun _ => 0))
      (Recv.okWith [5, 65, 66, 6, 67, 68, 7]
        (Buffer.copyDown 3 4 (Buffer.recvInto (fun _ => 0) 0 [5, 65, 66, 6, 67, 68, 7])))
      ).state.commandMessage.view 4 = [7, 67, 68, 7] ∧
    (clientReaderStep specTags demoNet demoPeerA threeByteHook (ReaderState.init (fun _ => 0))
      (Recv.okWith [5, 65, 66, 6, 67, 68, 7]
        (Buffer.copyDown 3 4 (Buffer.recvInto (fun _ => 0) 0 [5, 65, 66, 6, 67, 68, 7])))
      ).state.commandMessage.view 4 = [7, 67, 68, 7] ∧
    (∀ (t : Tags) (hook : Hook) (s : ReaderState) (r : Recv) (c : Nat),
      0 < r.bytes ∧ r.bytes < 1025 →
      (s.commandMessage.recvInto s.bufferSize r.data) 0 ≠ t.PONG →
      (s.commandMessage.recvInto s.bufferSize r.data) 0 ≠ t.GOODBYE →
      (s.commandMessage.recvInto s.bufferSize r.data) 0 ≠ t.HANDSHAKE →
      (hook (Message.mk0 (s.commandMessage.recvInto s.bufferSize r.data) r.bytes) = (true, c) →
        (serverReaderStep t hook s r).state.bufferSize = r.bytes - c ∧
        (r.bytes - c ≤ c →
          (serverReaderStep t hook s r).state.commandMessage.view (r.bytes - c) =
            ((s.commandMessage.recvInto s.bufferSize r.data).view r.bytes).drop c) ∧
        (c < r.bytes - c →
          (serverReaderStep t hook s r).state.commandMessage.view (r.bytes - c) =
            r.overlapped.view (r.bytes - c))) ∧
      (hook (Message.mk0 (s.commandMessage.recvInto s.bufferSize r.data) r.bytes) = (false, c) →
        (serverReaderStep t hook s r).state.commandMessage =
          s.commandMessage.recvInto s.bufferSize r.data)) ∧
    (∀ (t : Tags) (net : SendOracle) (mSocket : Socket) (hook : Hook) (s : ReaderState)
      (r : Recv) (c : Nat), 0 < r.bytes ∧ r.bytes < 1025 →
      (s.commandMessage.recvInto s.bufferSize r.data) 0 ≠ t.PING →
      (hook (Message.mk0 (s.commandMessage.recvInto s.bufferSize r.data) r.bytes) = (true, c) →
        (clientReaderStep t net mSocket hook s r).state.bufferSize = r.bytes - c ∧
        (r.bytes - c ≤ c →
          (clientReaderStep t net mSocket hook s r).state.commandMessage.view (r.bytes - c) =
            ((s.commandMessage.recvInto s.bufferSize r.data).view r.bytes).drop c) ∧
        (c < r.bytes - c →
          (clientReaderStep t net mSocket hook s r).state.commandMessage.view (r.bytes - c) =
            r.overlapped.view (r.bytes - c))) ∧
      (hook (Message.mk0 (s.commandMessage.recvInto s.bufferSize r.data) r.bytes) = (false, c) →
        (clientReaderStep t net mSocket hook s r).state.commandMessage =
          s.commandMessage.recvInto s.bufferSize r.data)) := by
  refine ⟨by decide, by decide, by decide, ?_, ?_⟩
  · intro t hook s r c hb h1 h2 h3
    have hstep : serverReaderStep t hook s r =
        dispatchAndCompact hook (s.commandMessage.recvInto s.bufferSize r.data) s.bufferSize
          r.bytes s.mRunning r.overlapped := by
      simp only [serverReaderStep]
      rw [if_pos (show r.bytes > 0 ∧ r.bytes < 1025 from hb), if_neg h1, if_neg h2, if_neg h3]
    rw [hstep]
    refine ⟨fun hh => ⟨dispatchAndCompact_offset hook _ _ _ c _ _ hh,
      fun hd => dispatchAndCompact_front hook _ _ _ c _ _ hh hd,
      fun hd => dispatchAndCompact_front_overlap hook _ _ _ c _ _ hh hd⟩, fun hh => ?_⟩
    rw [dispatchAndCompact_failed hook _ _ _ c _ _ hh]
  · intro t net mSocket hook s r c hb h1
    have hstep : clientReaderStep t net mSocket hook s r =
        dispatchAndCompact hook (s.commandMessage.recvInto s.bufferSize r.data)
          (s.bufferSize + r.bytes) r.bytes s.mRunning r.overlapped := by
      simp only [clientReaderStep]
      rw [if_pos (show r.bytes > 0 ∧ r.bytes < 1025 from hb), if_neg h1]
    rw [hstep]
    refine ⟨fun hh => ⟨dispatchAndCompact_offset hook _ _ _ c _ _ hh,
      fun hd => dispatchAndCompact_front hook _ _ _ c _ _ hh hd,
      fun hd => dispatchAndCompact_front_overlap hook _ _ _ c _ _ hh hd⟩, fun hh => ?_⟩
    rw [dispatchAndCompact_failed hook _ _ _ c _ _ hh]

/-! ## Client send to a given socket, versions at accept: theorems -/

/-- C29. For every message of length greater than 0 and every given `dst`,
`CommandClient::sendMessage` sends the message to `dst` exactly once when the
address or the port of `dst` differs from that of the client's own socket, and
returns true iff that send reported `length` bytes; when both are equal to
those of the client's own socket it sends nothing and returns true. The
exclude argument has no effect when `dst` is given. -/
theorem C29_client_send_to_dst (net : SendOracle) (c : CommandClient) (message : Buffer)
    (length : Nat) (dst : Socket) (src : Option ValueSource) (hlen : 0 < length) :
    ((c.mSocket.address ≠ dst.address ∨ c.mSocket.port ≠ dst.port) →
      CommandClient.sendMessage net c message length (some dst) src =
        (net dst length == length,
         [{ dst := dst, bytes := message.view length, length := length,
            result := net dst length }])) ∧
    (c.mSocket.address = dst.address → c.mSocket.port = dst.port →
      CommandClient.sendMessage net c message length (some dst) src = (true, [])) ∧
    CommandClient.sendMessage net c message length (some dst) src =
      CommandClient.sendMessage net c message length (some dst) none ∧
    ((net dst length == length) = true ↔ net dst length = length) := by
  have h0 : length ≠ 0 := Nat.pos_iff_ne_zero.mp hlen
  refine ⟨?_, ?_, ?_, ?_⟩
  · intro h
    have hne : (c.mSocket.address != dst.address || c.mSocket.port != dst.port) = true := by
      rcases h with h | h <;> simp [h]
    simp [CommandClient.sendMessage, h0, hne, doSend]
  · intro ha hp
    simp [CommandClient.sendMessage, h0, ha, hp]
  · simp [CommandClient.sendMessage, h0]
  · simp

/-- A use of C29: the started client sends three bytes to a peer socket, and to
a socket with its own address and port, an exclude value being given. -/
theorem C29_client_send_to_dst_witness :
    CommandClient.sendMessage demoNet demoClientStarted (Buffer.ofList [5, 65, 66]) 3
        (some demoPeerB) (some ⟨"10.0.0.3", 50002⟩) =
      (demoNet demoPeerB 3 == 3,
       [{ dst := demoPeerB, bytes := (Buffer.ofList [5, 65, 66]).view 3, length := 3,
          result := demoNet demoPeerB 3 }]) ∧
    CommandClient.sendMessage demoNet demoClientStarted (Buffer.ofList [5, 65, 66]) 3
        (some demoClientStarted.mSocket) none = (true, []) :=
  ⟨(C29_client_send_to_dst demoNet demoClientStarted (Buffer.ofList [5, 65, 66]) 3 demoPeerB
      (some ⟨"10.0.0.3", 50002⟩) (by decide)).1 (Or.inl (by decide)),
   (C29_client_send_to_dst demoNet demoClientStarted (Buffer.ofList [5, 65, 66]) 3
      demoClientStarted.mSocket none (by decide)).2.1 rfl rfl⟩


theorem from_bytes16_eq (bytes : Buffer) :
    Convert.from_bytes16 bytes = bytes 0 % 2 ^ 8 + 2 ^ 8 * (bytes 1 % 2 ^ 8) := by
  have h0 : bytes 0 % 2 ^ 8 < 2 ^ 8 := Nat.mod_lt _ (by norm_num)
  have h1 : bytes 1 % 2 ^ 8 < 2 ^ 8 := Nat.mod_lt _ (by norm_num)
  simp only [Convert.from_bytes16, Nat.mul_zero, Nat.mul_one, Nat.shiftLeft_zero]
  rw [lor_shift8 _ _ h0]
  omega

/-- C30. Version recording at accept. A running server that accepts a
connection whose first message has the leading byte `HANDSHAKE`: if 9 to 1024
bytes were received, it records as version the little-endian 16-bit value of the
bytes at offsets 1 and 2 and as revision that of the bytes at offsets 5 and 6;
if 1 to 8 bytes were received, it records version 0 and revision 0 whatever the
bytes are. The handshake that `CommandClient::start` sends has 8 bytes, so a
server that receives it whole records version 0 and revision 0. -/
theorem C30_versions_recorded (t : Tags) (net : SendOracle) (s : CommandServer) (a : Accepted)
    (hrun : s.mRunning = true) (hh : a.message 0 = t.HANDSHAKE) :
    (9 ≤ a.bytesRecv → a.bytesRecv < 1025 →
      (CommandServer.acceptIteration t net s (some a)).1.mConnectionVersions =
        s.mConnectionVersions ++
          [(a.message 1 % 2 ^ 8 + 2 ^ 8 * (a.message 2 % 2 ^ 8),
            a.message 5 % 2 ^ 8 + 2 ^ 8 * (a.message 6 % 2 ^ 8))]) ∧
    (0 < a.bytesRecv → a.bytesRecv < 9 →
      (CommandServer.acceptIteration t net s (some a)).1.mConnectionVersions =
        s.mConnectionVersions ++ [(0, 0)]) ∧
    (∀ (env : HandshakeEnv) (serverPort : Nat) (serverAddr : String) (c : CommandClient),
      env.openOk = true → env.connectOk = true →
      (CommandClient.start t net env serverPort serverAddr c).sends.map SendCall.length = [8]) := by
  refine ⟨?_, ?_, ?_⟩
  · intro h9 h1025
    have hr : 0 < a.bytesRecv ∧ a.bytesRecv < 1025 := ⟨by omega, h1025⟩
    simp only [CommandServer.acceptIteration, hrun, Bool.not_true, Bool.false_eq_true, if_false]
    rw [if_pos hr, if_pos hh]
    simp only [ge_iff_le, h9, if_true, from_bytes16_eq, Buffer.offset]
  · intro h0 h9
    have hr : 0 < a.bytesRecv ∧ a.bytesRecv < 1025 := ⟨h0, by omega⟩
    have hn : ¬ (a.bytesRecv ≥ 9) := by omega
    simp only [CommandServer.acceptIteration, hrun, Bool.not_true, Bool.false_eq_true, if_false]
    rw [if_pos hr, if_pos hh]
    simp only [hn, if_false]
  · intro env serverPort serverAddr c ho hc
    unfold CommandClient.start
    simp only [ho, hc, Bool.not_true, Bool.false_eq_true, if_false]
    split_ifs <;> simp [doSend]

/-- A use of C30: a handshake of nine bytes that carries version 1 at offsets 1
and 2 and revision 258 at offsets 5 and 6, and the same bytes when only eight
of them were received. -/
theorem C30_versions_recorded_witness :
    (CommandServer.acceptIteration specTags demoNet demoServer
      (some { socket := demoPeerA, bytesRecv := 9,
              message := Buffer.ofList [0, 1, 0, 0, 0, 2, 1, 0, 0] })).1.mConnectionVersions =
      [] ++ [(1 % 2 ^ 8 + 2 ^ 8 * (0 % 2 ^ 8), 2 % 2 ^ 8 + 2 ^ 8 * (1 % 2 ^ 8))] ∧
    (CommandServer.acceptIteration specTags demoNet demoServer
      (some { socket := demoPeerA, bytesRecv := 8,
              message := Buffer.ofList [0, 1, 0, 0, 0, 2, 1, 0, 0] })).1.mConnectionVersions =
      [] ++ [(0, 0)] :=
  ⟨(C30_versions_recorded specTags demoNet demoServer
      { socket := demoPeerA, bytesRecv := 9,
        message := Buffer.ofList [0, 1, 0, 0, 0, 2, 1, 0, 0] } (by decide) (by decide)).1
      (by decide) (by decide),
   (C30_versions_recorded specTags demoNet demoServer
      { socket := demoPeerA, bytesRecv := 8,
        message := Buffer.ofList [0, 1, 0, 0, 0, 2, 1, 0, 0] } (by decide) (by decide)).2.1
      (by decide) (by decide)⟩


/-! ## Receive offsets and the registry invariant: theorems -/

theorem dispatchAndCompact_bufferSize_le (hook : Hook) (cm : Buffer) (bufferSize bytes : Nat)
    (run : Bool) (ov : Buffer) (hb : bufferSize ≤ 1024) (hbytes : bytes < 1025) :
    (dispatchAndCompact hook cm bufferSize bytes run ov).state.bufferSize ≤ 1024 := by
  simp only [dispatchAndCompact]
  split_ifs
  · exact hb
  · simp only [Message.remainingBytes, Message.mk0]
    omega
  · exact Nat.zero_le _

theorem serverReaderStep_bufferSize_le (t : Tags) (hook : Hook) (s : ReaderState) (r : Recv)
    (hb : s.bufferSize ≤ 1024) : (serverReaderStep t hook s r).state.bufferSize ≤ 1024 := by
  simp only [serverReaderStep]
  split_ifs with h1
  · exact hb
  · exact hb
  · exact hb
  · exact dispatchAndCompact_bufferSize_le hook _ _ _ _ _ hb h1.2
  · exact hb
  · exact hb

theorem serverReaderRunHooks_bufferSize_le (t : Tags) (events : List (Hook × Recv)) :
    ∀ s : ReaderState, s.bufferSize ≤ 1024 →
      (serverReaderRunHooks t s events).state.bufferSize ≤ 1024 := by
  induction events with
  | nil => intro s hs; exact hs
  | cons e rest ih =>
    intro s hs
    simp only [serverReaderRunHooks, runLoopHooks]
    split_ifs
    · exact ih _ (serverReaderStep_bufferSize_le t e.1 s e.2 hs)
    · exact hs

/-- C27. Server receive-buffer safety. A `Message` reports as remaining its
length less its cursor, never more than the length it was constructed with.
Then an iteration of the server reader loop entered with the offset
`bufferSize` at most 1024 leaves it at most 1024, and for every sequence of
receive results and hook behaviours the offset after the loop has run over the
sequence from its start is at most 1024; so before every `recv` the offset is
at most 1024, and a receive of up to 1024 bytes at that offset ends at or
before index 2048. -/
theorem C27_server_offset_bounded (t : Tags) :
    (∀ m : Message, m.remainingBytes ≤ m.length) ∧
    (∀ (hook : Hook) (s : ReaderState) (r : Recv), s.bufferSize ≤ 1024 →
      (serverReaderStep t hook s r).state.bufferSize ≤ 1024) ∧
    (∀ (init : Buffer) (events : List (Hook × Recv)),
      (serverReaderRunHooks t (ReaderState.init init) events).state.bufferSize ≤ 1024) ∧
    (∀ (init : Buffer) (events : List (Hook × Recv)) (data : List Nat), data.length ≤ 1024 →
      (serverReaderRunHooks t (ReaderState.init init) events).state.bufferSize + data.length
        ≤ 2048) := by
  refine ⟨?_, ?_, ?_, ?_⟩
  · intro m
    exact Nat.sub_le _ _
  · intro hook s r hs
    exact serverReaderStep_bufferSize_le t hook s r hs
  · intro init events
    exact serverReaderRunHooks_bufferSize_le t events _ (Nat.zero_le _)
  · intro init events data hd
    have := serverReaderRunHooks_bufferSize_le t events (ReaderState.init init) (Nat.zero_le _)
    omega

theorem acceptIteration_lists (t : Tags) (net : SendOracle) (s : CommandServer)
    (acc : Option Accepted) :
    ((CommandServer.acceptIteration t net s acc).1.mServerConnections = s.mServerConnections ∧
      (CommandServer.acceptIteration t net s acc).1.mConnectionVersions =
        s.mConnectionVersions ∧
      (CommandServer.acceptIteration t net s acc).1.mConnectionThreads =
        s.mConnectionThreads) ∨
    (∃ a : Accepted, acc = some a ∧
      (CommandServer.acceptIteration t net s acc).1.mServerConnections =
        s.mServerConnections ++ [a.socket] ∧
      (CommandServer.acceptIteration t net s acc).1.mConnectionVersions =
        s.mConnectionVersions ++
          [(if a.bytesRecv ≥ 9 then Convert.from_bytes16 (a.message.offset 1) else 0,
            if a.bytesRecv ≥ 9 then Convert.from_bytes16 (a.message.offset 5) else 0)] ∧
      (CommandServer.acceptIteration t net s acc).1.mConnectionThreads =
        s.mConnectionThreads ++ [{ joinable := true }]) := by
  unfold CommandServer.acceptIteration
  split_ifs
  · exact Or.inl ⟨rfl, rfl, rfl⟩
  · cases acc with
    | none => exact Or.inl ⟨rfl, rfl, rfl⟩
    | some a =>
      dsimp only
      by_cases hr : 0 < a.bytesRecv ∧ a.bytesRecv < 1025
      · by_cases hh : a.message 0 = t.HANDSHAKE
        · rw [if_pos hr, if_pos hh]
          exact Or.inr ⟨a, rfl, rfl, rfl, rfl⟩
        · rw [if_pos hr, if_neg hh]
          exact Or.inl ⟨rfl, rfl, rfl⟩
      · rw [if_neg hr]
        exact Or.inl ⟨rfl, rfl, rfl⟩

theorem start_lists (openOk bindOk listenOk : Bool) (serverPort : Nat) (serverAddr : String)
    (s : CommandServer) :
    (CommandServer.start openOk bindOk listenOk serverPort serverAddr s).1.mServerConnections =
      s.mServerConnections ∧
    (CommandServer.start openOk bindOk listenOk serverPort serverAddr s).1.mConnectionVersions =
      s.mConnectionVersions ∧
    (CommandServer.start openOk bindOk listenOk serverPort serverAddr s).1.mConnectionThreads =
      s.mConnectionThreads := by
  unfold CommandServer.start
  split_ifs <;> exact ⟨rfl, rfl, rfl⟩

theorem readerIteration_lists (t : Tags) (hook : Hook) (s : CommandServer) (loc : ReaderState)
    (r : Recv) :
    (CommandServer.readerIteration t hook s loc r).mServerConnections = s.mServerConnections ∧
    (CommandServer.readerIteration t hook s loc r).mConnectionVersions =
      s.mConnectionVersions ∧
    (CommandServer.readerIteration t hook s loc r).mConnectionThreads =
      s.mConnectionThreads := by
  unfold CommandServer.readerIteration
  split_ifs <;> exact ⟨rfl, rfl, rfl⟩

theorem stop_lists (s s1 : CommandServer) (hs : s.stop = .ok s1) :
    s1.mServerConnections = s.mServerConnections.map Socket.close ∧
    s1.mConnectionVersions = s.mConnectionVersions ∧
    s1.mConnectionThreads.length = s.mConnectionThreads.length := by
  rw [commandServer_stop_eq] at hs
  cases hb : joinBootstrap s.mBootstrapServerThread with
  | error e => rw [hb] at hs; cases hs
  | ok boot =>
    rw [hb] at hs
    cases hj : joinAll s.mConnectionThreads with
    | error e => rw [hj] at hs; cases hs
    | ok threads =>
      rw [hj] at hs
      have hth := joinAll_ok_inv _ _ hj
      cases hs
      refine ⟨rfl, rfl, ?_⟩
      show threads.length = _
      rw [hth, List.length_map]

theorem reachable_lengths (t : Tags) (net : SendOracle) (s : CommandServer)
    (h : CommandServer.Reachable t net s) :
    s.mServerConnections.length = s.mConnectionVersions.length ∧
    s.mConnectionVersions.length = s.mConnectionThreads.length := by
  induction h with
  | fresh sock version revision => exact ⟨rfl, rfl⟩
  | start openOk bindOk listenOk serverPort serverAddr s _ ih =>
    obtain ⟨h1, h2, h3⟩ := start_lists openOk bindOk listenOk serverPort serverAddr s
    rw [h1, h2, h3]
    exact ih
  | accept s acc _ ih =>
    rcases acceptIteration_lists t net s acc with ⟨h1, h2, h3⟩ | ⟨a, _, h1, h2, h3⟩
    · rw [h1, h2, h3]
      exact ih
    · rw [h1, h2, h3]
      simp only [List.length_append, List.length_singleton]
      omega
  | reader hook s loc r _ ih =>
    obtain ⟨h1, h2, h3⟩ := readerIteration_lists t hook s loc r
    rw [h1, h2, h3]
    exact ih
  | stop s s1 _ hs ih =>
    obtain ⟨h1, h2, h3⟩ := stop_lists s s1 hs
    rw [h1, h2, h3, List.length_map]
    exact ih

/-- C25. Registry and reader invariant. In every server state reached from a
server before `start()` by calls of `start`, iterations of the accept loop,
iterations of reader threads and calls of `stop` that return, the registry of
peer sockets, the list of recorded version pairs and the list of reader threads
have the same length. An iteration of the accept loop either leaves the three
lists as they are or appends one entry to the end of each (the accepted socket,
its version pair, its reader thread), so the entries at one index belong to one
accepted connection; `start` and the reader iterations leave the three lists as
they are, and `stop` closes the sockets and joins the threads in place. The
started server with one registered peer is such a state. -/
theorem C25_registry_invariant :
    (∀ (t : Tags) (net : SendOracle) (s : CommandServer), CommandServer.Reachable t net s →
      s.mServerConnections.length = s.mConnectionVersions.length ∧
      s.mConnectionVersions.length = s.mConnectionThreads.length) ∧
    (∀ (t : Tags) (net : SendOracle) (s : CommandServer) (acc : Option Accepted),
      ((CommandServer.acceptIteration t net s acc).1.mServerConnections =
          s.mServerConnections ∧
        (CommandServer.acceptIteration t net s acc).1.mConnectionVersions =
          s.mConnectionVersions ∧
        (CommandServer.acceptIteration t net s acc).1.mConnectionThreads =
          s.mConnectionThreads) ∨
      (∃ a : Accepted, acc = some a ∧
        (CommandServer.acceptIteration t net s acc).1.mServerConnections =
          s.mServerConnections ++ [a.socket] ∧
        (CommandServer.acceptIteration t net s acc).1.mConnectionVersions =
          s.mConnectionVersions ++
            [(if a.bytesRecv ≥ 9 then Convert.from_bytes16 (a.message.offset 1) else 0,
              if a.bytesRecv ≥ 9 then Convert.from_bytes16 (a.message.offset 5) else 0)] ∧
        (CommandServer.acceptIteration t net s acc).1.mConnectionThreads =
          s.mConnectionThreads ++ [{ joinable := true }])) ∧
    (∀ (openOk bindOk listenOk : Bool) (serverPort : Nat) (serverAddr : String)
      (s : CommandServer),
      (CommandServer.start openOk bindOk listenOk serverPort serverAddr s).1.mServerConnections
        = s.mServerConnections ∧
      (CommandServer.start openOk bindOk listenOk serverPort serverAddr s).1.mConnectionVersions
        = s.mConnectionVersions ∧
      (CommandServer.start openOk bindOk listenOk serverPort serverAddr s).1.mConnectionThreads
        = s.mConnectionThreads) ∧
    (∀ (t : Tags) (hook : Hook) (s : CommandServer) (loc : ReaderState) (r : Recv),
      (CommandServer.readerIteration t hook s loc r).mServerConnections =
        s.mServerConnections ∧
      (CommandServer.readerIteration t hook s loc r).mConnectionVersions =
        s.mConnectionVersions ∧
      (CommandServer.readerIteration t hook s loc r).mConnectionThreads =
        s.mConnectionThreads) ∧
    (∀ s s1 : CommandServer, s.stop = .ok s1 →
      s1.mServerConnections = s.mServerConnections.map Socket.close ∧
      s1.mConnectionVersions = s.mConnectionVersions ∧
      s1.mConnectionThreads = s.mConnectionThreads.map (fun _ => { joinable := false })) ∧
    CommandServer.Reachable specTags demoNet demoServerOnePeer ∧
    demoServerOnePeer.mServerConnections.length = 1 := by
  refine ⟨reachable_lengths, acceptIteration_lists, start_lists, readerIteration_lists, ?_, ?_,
    rfl⟩
  · intro s s1 hs
    obtain ⟨h1, h2, _⟩ := stop_lists s s1 hs
    refine ⟨h1, h2, ?_⟩
    rw [commandServer_stop_eq] at hs
    cases hb : joinBootstrap s.mBootstrapServerThread with
    | error e => rw [hb] at hs; cases hs
    | ok boot =>
      rw [hb] at hs
      cases hj : joinAll s.mConnectionThreads with
      | error e => rw [hj] at hs; cases hs
      | ok threads =>
        rw [hj] at hs
        have hth := joinAll_ok_inv _ _ hj
        cases hs
        exact hth
  · exact CommandServer.Reachable.accept _ _
      (CommandServer.Reachable.start true true true 9000 "0.0.0.0" _
        (CommandServer.Reachable.fresh demoListen 1 0))


theorem runLoop_cons (step : ReaderState → Recv → LoopResult) (s : ReaderState) (r : Recv)
    (rest : List Recv) (h : s.mRunning = true) :
    runLoop step s (r :: rest) =
      { state := (runLoop step (step s r).state rest).state,
        dispatches := (step s r).dispatches ++ (runLoop step (step s r).state rest).dispatches,
        sends := (step s r).sends ++ (runLoop step (step s r).state rest).sends } := by
  simp [runLoop, h]

theorem clientReaderStep_ping (t : Tags) (net : SendOracle) (mSocket : Socket) (hook : Hook)
    (s : ReaderState) (r : Recv) (hb : 0 < r.bytes ∧ r.bytes < 1025)
    (h : (s.commandMessage.recvInto s.bufferSize r.data) 0 = t.PING) :
    clientReaderStep t net mSocket hook s r =
      { state := { commandMessage := s.commandMessage.recvInto s.bufferSize r.data,
                   bufferSize := s.bufferSize + r.bytes, mRunning := s.mRunning },
        dispatches := [], sends := clientHandlePing t net mSocket } := by
  simp only [clientReaderStep]
  rw [if_pos (show r.bytes > 0 ∧ r.bytes < 1025 from hb), if_pos h]

theorem clientReaderRun_after_ping (t : Tags) (net : SendOracle) (mSocket : Socket)
    (hook : Hook) (init : Buffer) (d1 d2 : List Nat)
    (h1 : 0 < d1.length ∧ d1.length < 1025) (h2 : 0 < d2.length ∧ d2.length < 1025)
    (hp : d1.getD 0 0 = t.PING) :
    clientReaderRun t net mSocket hook (ReaderState.init init) [Recv.ok d1, Recv.ok d2] =
      { state := { commandMessage := (init.recvInto 0 d1).recvInto d1.length d2,
                   bufferSize := d1.length + d2.length, mRunning := true },
        dispatches := [],
        sends := clientHandlePing t net mSocket ++ clientHandlePing t net mSocket } := by
  have l1 : (init.recvInto 0 d1) 0 = t.PING := by
    simp only [Buffer.recvInto]
    rw [if_pos ⟨Nat.le_refl 0, by omega⟩]
    exact hp
  have l2 : ((init.recvInto 0 d1).recvInto d1.length d2) 0 = t.PING := by
    rw [← l1]
    show (if d1.length ≤ 0 ∧ 0 < d1.length + d2.length then _ else _) = _
    rw [if_neg (by omega)]
  have e1 := clientReaderStep_ping t net mSocket hook (ReaderState.init init) (Recv.ok d1) h1 l1
  have e2 := clientReaderStep_ping t net mSocket hook
    { commandMessage := init.recvInto 0 d1, bufferSize := d1.length, mRunning := true }
    (Recv.ok d2) h2 l2
  have e1a : clientReaderStep t net mSocket hook (ReaderState.init init) (Recv.ok d1) =
      { state := { commandMessage := init.recvInto 0 d1, bufferSize := d1.length,
                   mRunning := true },
        dispatches := [], sends := clientHandlePing t net mSocket } := by
    rw [e1]
    simp [ReaderState.init, Recv.ok]
  rw [clientReaderRun, runLoop_cons _ _ _ _ rfl, e1a]
  dsimp only
  rw [runLoop_cons _ _ _ _ rfl, e2]
  simp [runLoop, Recv.ok]

/-- C26 (code evaluated at the failing input). In the client read loop the
offset `bufferSize` grows by the received count at every receive of 1 to 1024
bytes and is reset only after a successful dispatch: when the leading byte of
the buffer is `PING`, and when the hook reports failure, it keeps the sum. Two
receives of 1024 bytes, the first starting with `PING`, leave the loop running
with the offset at 2048, which is more than 1024 and is the length of the
array, so the next `recv` stores behind the array. -/
theorem C26_client_offset_exceeds_buffer :
    (∀ (t : Tags) (net : SendOracle) (mSocket : Socket) (hook : Hook) (s : ReaderState)
      (r : Recv), 0 < r.bytes ∧ r.bytes < 1025 →
      (s.commandMessage.recvInto s.bufferSize r.data) 0 = t.PING →
      (clientReaderStep t net mSocket hook s r).state.bufferSize = s.bufferSize + r.bytes) ∧
    (∀ (t : Tags) (net : SendOracle) (mSocket : Socket) (hook : Hook) (s : ReaderState)
      (r : Recv) (c : Nat), 0 < r.bytes ∧ r.bytes < 1025 →
      (s.commandMessage.recvInto s.bufferSize r.data) 0 ≠ t.PING →
      hook (Message.mk0 (s.commandMessage.recvInto s.bufferSize r.data) r.bytes) = (false, c) →
      (clientReaderStep t net mSocket hook s r).state.bufferSize = s.bufferSize + r.bytes) ∧
    (clientReaderRun specTags demoNet demoPeerA threeByteHook (ReaderState.init (fun _ => 0))
      [Recv.ok (specTags.PING :: List.replicate 1023 0),
       Recv.ok (List.replicate 1024 0)]).state.bufferSize = 2048 ∧
    (clientReaderRun specTags demoNet demoPeerA threeByteHook (ReaderState.init (fun _ => 0))
      [Recv.ok (specTags.PING :: List.replicate 1023 0),
       Recv.ok (List.replicate 1024 0)]).state.mRunning = true ∧
    ¬ (clientReaderRun specTags demoNet demoPeerA threeByteHook (ReaderState.init (fun _ => 0))
      [Recv.ok (specTags.PING :: List.replicate 1023 0),
       Recv.ok (List.replicate 1024 0)]).state.bufferSize ≤ 1024 := by
  have hrun := clientReaderRun_after_ping specTags demoNet demoPeerA threeByteHook
    (fun _ => 0) (specTags.PING :: List.replicate 1023 0) (List.replicate 1024 0)
    (by rw [List.length_cons, List.length_replicate]; omega)
    (by rw [List.length_replicate]; omega) rfl
  rw [List.length_cons, List.length_replicate, List.length_replicate] at hrun
  refine ⟨?_, ?_, ?_, ?_, ?_⟩
  · intro t net mSocket hook s r hb h
    rw [clientReaderStep_ping t net mSocket hook s r hb h]
  · intro t net mSocket hook s r c hb h hh
    simp only [clientReaderStep]
    rw [if_pos (show r.bytes > 0 ∧ r.bytes < 1025 from hb), if_neg h,
      dispatchAndCompact_failed hook _ _ _ c _ _ hh]
  · rw [hrun]
  · rw [hrun]
  · rw [hrun]
    decide

/-- C28 (code evaluated at the failing input). From the start of the client
read loop, a receive of the two bytes `{PING, 0}` leaves the offset at 2 and
the byte `PING` at the front of the buffer; the next receive stores the message
`M` (1 to 1024 bytes, whatever its leading byte) at offset 2, the leading byte
of the buffer is still `PING`, and the loop answers with a second `{PONG, 0}`
without invoking the hook: `M` is never dispatched, while the same `M` received
at the start of the loop is. -/
theorem C28_ping_blocks_later_dispatch :
    (∀ (t : Tags) (net : SendOracle) (mSocket : Socket) (hook : Hook) (init : Buffer)
      (M : List Nat), 0 < M.length → M.length < 1025 →
      (clientReaderRun t net mSocket hook (ReaderState.init init)
        [Recv.ok [t.PING, 0], Recv.ok M]).dispatches = [] ∧
      (clientReaderRun t net mSocket hook (ReaderState.init init)
        [Recv.ok [t.PING, 0], Recv.ok M]).sends =
        [{ dst := mSocket, bytes := [t.PONG, 0], length := 2, result := net mSocket 2 },
         { dst := mSocket, bytes := [t.PONG, 0], length := 2, result := net mSocket 2 }] ∧
      (clientReaderRun t net mSocket hook (ReaderState.init init)
        [Recv.ok [t.PING, 0], Recv.ok M]).state.bufferSize = 2 + M.length) ∧
    (clientReaderRun specTags demoNet demoPeerA threeByteHook (ReaderState.init (fun _ => 0))
      [Recv.ok [specTags.PING, 0], Recv.ok [5, 65, 66]]).dispatches = [] ∧
    (clientReaderRun specTags demoNet demoPeerA threeByteHook (ReaderState.init (fun _ => 0))
      [Recv.ok [5, 65, 66]]).dispatches.map (fun d => d.message.buffer) = [[5, 65, 66]] := by
  refine ⟨?_, by decide, by decide⟩
  intro t net mSocket hook init M h0 h1
  rw [clientReaderRun_after_ping t net mSocket hook init [t.PING, 0] M
    ⟨Nat.succ_pos 1, by simp⟩ ⟨h0, h1⟩ rfl]
  exact ⟨rfl, rfl, rfl⟩


/-! ## Locking of the connection registry: theorems -/

theorem lockedAccess_reads_held (n : Nat) (rest : List RegistryEvent) :
    lockedAccess true (List.replicate n .read ++ rest) = lockedAccess true rest := by
  induction n with
  | zero => rfl
  | succ n ih =>
    rw [List.replicate_succ, List.cons_append]
    simp only [lockedAccess, Bool.true_and]
    exact ih

theorem lockedAccess_enumerate_held (n : Nat) (rest : List RegistryEvent) :
    lockedAccess true (enumerateRegistry n ++ rest) = lockedAccess true rest := by
  simp only [enumerateRegistry, List.cons_append, lockedAccess, Bool.true_and]
  exact lockedAccess_reads_held n rest

theorem lockedAccess_polls (polls : Nat) (held : Bool) :
    lockedAccess held (List.replicate polls [.lock, .read, .unlock]).flatten = true := by
  induction polls generalizing held with
  | zero => rfl
  | succ n ih =>
    rw [List.replicate_succ, List.flatten_cons]
    simp only [List.cons_append, List.nil_append, lockedAccess, Bool.true_and]
    exact ih false

/-- C21 (code evaluated at the failing input). The registration in the accept
loop, `ping`, `connectionCount`, `waitForConnections` and the closing loop of
`stop` access the registry `mServerConnections` only between `lock()` and
`unlock()` of `mConnectionsLock`. The function `sendMessage` does not: for every
length greater than 0 and no `dst`, it enumerates the registry without ever
taking the mutex, as on the started server with three peers. -/
theorem C21_send_enumerates_without_lock :
    (∀ s : CommandServer,
      lockedAccess false CommandServer.registrationEvents = true ∧
      lockedAccess false s.pingEvents = true ∧
      lockedAccess false CommandServer.connectionCountEvents = true ∧
      (∀ polls : Nat, lockedAccess false (s.waitForConnectionsEvents polls) = true) ∧
      lockedAccess false s.stopEvents = true) ∧
    (∀ (s : CommandServer) (length : Nat), 0 < length →
      lockedAccess false (s.sendMessageEvents length none) = false ∧
      RegistryEvent.lock ∉ s.sendMessageEvents length none) ∧
    lockedAccess false (demoServerThreePeers.sendMessageEvents 3 none) = false := by
  refine ⟨?_, ?_, by decide⟩
  · intro s
    refine ⟨rfl, ?_, rfl, ?_, ?_⟩
    · show lockedAccess false
          ([.lock] ++ (enumerateRegistry s.mServerConnections.length ++ [.unlock])) = true
      show lockedAccess true (enumerateRegistry s.mServerConnections.length ++ [.unlock]) = true
      rw [lockedAccess_enumerate_held]
      rfl
    · intro polls
      simp only [CommandServer.waitForConnectionsEvents]
      split_ifs
      · simp only [List.cons_append, List.nil_append, lockedAccess, Bool.true_and]
        exact lockedAccess_polls polls false
      · rfl
    · show lockedAccess false
          ([.lock] ++ (enumerateRegistry s.mServerConnections.length ++ [.unlock])) = true
      show lockedAccess true (enumerateRegistry s.mServerConnections.length ++ [.unlock]) = true
      rw [lockedAccess_enumerate_held]
      rfl
  · intro s length hlen
    have h0 : length ≠ 0 := Nat.pos_iff_ne_zero.mp hlen
    simp only [CommandServer.sendMessageEvents, h0, if_false, enumerateRegistry, lockedAccess,
      Bool.false_and, true_and]
    intro hmem
    rw [List.mem_cons] at hmem
    rcases hmem with h | h
    · cases h
    · have := List.eq_of_mem_replicate h
      cases this

end al
